import Mathlib

/-!
# plumed2: the restraint bias and the analysis delegation chain

A shallow embedding of `src/BiasRestraint.cpp` (the harmonic + linear restraint)
and of `src/analysis/AnalysisBase.h` (the default queries of an analysis node).

Conventions of the embedding:
* a C++ `double` is an exact rational (`ℚ`): the theorems are statements of exact
  arithmetic, rounding is not modelled;
* `unsigned` indices are natural numbers (no arithmetic is done on them);
* an object with mutable members is a structure, a member function that mutates
  the object returns the new object;
* code that can fail (an out-of-range `operator[]`, a failed `assert`,
  `plumed_error()`, a call through a null pointer) returns `Option`/`Except`.
-/

namespace PLMD

/-! ## Failures -/

/-- The ways in which the embedded code stops without producing a result. -/
inductive Failure where
  /-- a failed `assert(...)`; the text is the asserted condition -/
  | assertion (condition : String)
  /-- the fatal error raised by `plumed_error()` -/
  | plumed_error
  /-- a member call through a null pointer -/
  | nullPointer
  deriving DecidableEq, Repr

/-! ## Arguments (`Value`) -/

/-- Modelled from the spec: the periodicity descriptor of a `Value` (class `Value`
is not among the sources); "optional periodic domain (min, max, or not periodic)". -/
inductive Periodicity where
  | notperiodic
  | periodic (min max : ℚ)
  deriving DecidableEq, Repr

/-- Modelled from the spec: a `Value` (class `Value` is not among the sources):
"current numeric value, optional periodic domain, accumulated generalized force". -/
structure Value where
  value : ℚ
  periodicity : Periodicity
  inputForce : ℚ
  deriving DecidableEq, Repr

/-- Modelled from the spec: `Value::difference` (not among the sources), section 4.1:
non-periodic: `currentValue - referenceValue`; periodic with domain width `W`: the
signed delta folded into `(-W/2, W/2]`. -/
def Value.difference (v : Value) (d1 d2 : ℚ) : ℚ :=
  match v.periodicity with
  | .notperiodic => d2 - d1
  | .periodic min max => (d2 - d1) - (max - min) * ⌈(d2 - d1) / (max - min) - 1 / 2⌉

/-- Modelled from the spec: `ActionWithArguments::difference(i, d1, d2)` (not among
the sources): the argument index selects the periodicity descriptor. An index that
names no argument is treated as non-periodic. -/
def difference (arguments : List Value) (i : Nat) (d1 d2 : ℚ) : ℚ :=
  match arguments[i]? with
  | some v => v.difference d1 d2
  | none => d2 - d1

/-! ## `BiasRestraint` -/

/-- The object state of `BiasRestraint`: the members `at`, `kappa`, `slope` of the
class, the arguments it inherits from `ActionWithArguments`, and the two values
`bias` and `force2` added in the constructor. (`at` is written `at_`.) -/
structure BiasRestraint where
  arguments : List Value
  at_ : List ℚ
  kappa : List ℚ
  slope : List ℚ
  bias : ℚ
  force2 : ℚ
  deriving DecidableEq, Repr

namespace BiasRestraint

/-- `getNumberOfArguments()`. -/
def getNumberOfArguments (self : BiasRestraint) : Nat :=
  self.arguments.length

/-- `getArgument(i)`: the current value of argument `i`. -/
def getArgument (self : BiasRestraint) (i : Nat) : Option ℚ :=
  (self.arguments[i]?).map Value.value

/-- Modelled from the spec: `Bias::setOutputForces(i, f)` (class `Bias` is not among
the sources): "write `force` into argument `i`'s force accumulator (additive, since
multiple biases may act on the same argument)". -/
def setOutputForces (self : BiasRestraint) (i : Nat) (f : ℚ) : Option BiasRestraint :=
  match self.arguments[i]? with
  | none => none
  | some v =>
    some { self with arguments := self.arguments.set i { v with inputForce := v.inputForce + f } }

/-- The local variables `ene`, `totf2` of `calculate` together with the object. -/
structure Locals where
  self : BiasRestraint
  ene : ℚ
  totf2 : ℚ

/-- The body of the `for` loop of `BiasRestraint::calculate` at index `i`.
`difference` is `ActionWithArguments::difference`, which is not among the sources
and is taken as a parameter. -/
def calculateBody (difference : Nat → ℚ → ℚ → ℚ) (st : Locals) (i : Nat) : Option Locals := do
  let a ← st.self.at_[i]?
  let x ← st.self.getArgument i
  let cv := difference i a x
  let k ← st.self.kappa[i]?
  let m ← st.self.slope[i]?
  let f := -(k * cv + m)
  let ene := st.ene + (0.5 * k * cv * cv + m * cv)
  let self ← st.self.setOutputForces i f
  let totf2 := st.totf2 + f * f
  some { self := self, ene := ene, totf2 := totf2 }

/-- `BiasRestraint::calculate`: the loop over `i = 0 .. getNumberOfArguments()-1`,
then `setValue` on `bias` and on `force2`. -/
def calculate (difference : Nat → ℚ → ℚ → ℚ) (self : BiasRestraint) : Option BiasRestraint := do
  let st ← (List.range self.getNumberOfArguments).foldlM (calculateBody difference)
    { self := self, ene := 0.0, totf2 := 0.0 }
  some { st.self with bias := st.ene, force2 := st.totf2 }

/-! ### The documented potential, as closed formulas

The formulas of the documentation block of `BiasRestraint.cpp`, written over the
configuration: they are what the loop of `calculate` is compared with. -/

/-- The displacement `cv[i] = difference(i, at[i], value[i])`. -/
def cv (difference : Nat → ℚ → ℚ → ℚ) (self : BiasRestraint) (i : Nat) : ℚ :=
  difference i (self.at_.getD i 0) ((self.arguments.map Value.value).getD i 0)

/-- The force `-(kappa[i]*cv[i] + slope[i])` on argument `i`. -/
def force (difference : Nat → ℚ → ℚ → ℚ) (self : BiasRestraint) (i : Nat) : ℚ :=
  -(self.kappa.getD i 0 * cv difference self i + self.slope.getD i 0)

/-- The energy `0.5*kappa[i]*cv[i]^2 + slope[i]*cv[i]` of argument `i`. -/
def energy (difference : Nat → ℚ → ℚ → ℚ) (self : BiasRestraint) (i : Nat) : ℚ :=
  0.5 * self.kappa.getD i 0 * cv difference self i ^ 2 + self.slope.getD i 0 * cv difference self i

/-- The force accumulators of the arguments, in argument order. -/
def inputForces (self : BiasRestraint) : List ℚ :=
  self.arguments.map Value.inputForce

/-- The current values of the arguments, in argument order. -/
def values (self : BiasRestraint) : List ℚ :=
  self.arguments.map Value.value

/-- The arguments after the forces `fs` were added to their accumulators, one by one. -/
def addForces (arguments : List Value) (fs : List ℚ) : List Value :=
  List.zipWith (fun v f => { v with inputForce := v.inputForce + f }) arguments fs

/-- The two outputs published by `calculate`: (`bias`, `force2`). -/
def published (self : BiasRestraint) : ℚ × ℚ :=
  (self.bias, self.force2)

/-- The object with the current value of argument `i` replaced by `x`. -/
def withArgument (self : BiasRestraint) (i : Nat) (x : ℚ) : BiasRestraint :=
  { self with
    arguments := List.zipWith (fun v j => if j = i then { v with value := x } else v)
      self.arguments (List.range self.arguments.length) }

/-- The first end-to-end scenario of the spec: one non-periodic argument with value
`3.0`, `AT=[2.0]`, `KAPPA=[10.0]`, `SLOPE=[1.0]`; accumulators and outputs at zero. -/
def scenarioOne : BiasRestraint :=
  { arguments := [{ value := 3.0, periodicity := .notperiodic, inputForce := 0 }],
    at_ := [2.0], kappa := [10.0], slope := [1.0], bias := 0, force2 := 0 }

/-- The first scenario after earlier activity: the accumulator holds `7` and the
outputs of an earlier step are still stored. -/
def scenarioOneUsed : BiasRestraint :=
  { arguments := [{ value := 3.0, periodicity := .notperiodic, inputForce := 7 }],
    at_ := [2.0], kappa := [10.0], slope := [1.0], bias := 42, force2 := 5 }

/-- The second end-to-end scenario of the spec: two non-periodic arguments with values
`[0.1, -0.1]`, `AT=[0.0,0.0]`, `KAPPA=[100.0,100.0]`, `SLOPE=[0.0,0.0]`. -/
def scenarioTwo : BiasRestraint :=
  { arguments := [{ value := 0.1, periodicity := .notperiodic, inputForce := 0 },
                  { value := -0.1, periodicity := .notperiodic, inputForce := 0 }],
    at_ := [0.0, 0.0], kappa := [100.0, 100.0], slope := [0.0, 0.0], bias := 0, force2 := 0 }

/-- The restraint `self` acting on the argument objects `arguments`: the biases of one
step share the arguments, each sees the accumulators as the previous one left them. -/
def onArguments (self : BiasRestraint) (arguments : List Value) : BiasRestraint :=
  { self with arguments := arguments }

/-- A second restraint on the argument of the first scenario: `AT=[0.0]`, `KAPPA=[2.0]`,
`SLOPE=[0.0]`. -/
def scenarioOther : BiasRestraint :=
  { arguments := [{ value := 3.0, periodicity := .notperiodic, inputForce := 0 }],
    at_ := [0.0], kappa := [2.0], slope := [0.0], bias := 0, force2 := 0 }

/-- A restraint on one periodic argument with domain `[-1, 1)` (width `2`), value `0.9`,
`AT=[-0.9]`, `KAPPA=[10.0]`, `SLOPE=[0.0]`: the centre lies across the boundary. -/
def scenarioPeriodic : BiasRestraint :=
  { arguments := [{ value := 0.9, periodicity := .periodic (-1) 1, inputForce := 0 }],
    at_ := [-0.9], kappa := [10.0], slope := [0.0], bias := 0, force2 := 0 }

/-- An object that breaks the construction invariant: one argument, no `KAPPA` entry. -/
def scenarioMissized : BiasRestraint :=
  { arguments := [{ value := 3.0, periodicity := .notperiodic, inputForce := 0 }],
    at_ := [2.0], kappa := [], slope := [1.0], bias := 0, force2 := 0 }

/-- A restraint over no argument at all, with outputs of an earlier step still stored. -/
def scenarioNone : BiasRestraint :=
  { arguments := [], at_ := [], kappa := [], slope := [], bias := 42, force2 := 5 }

/-- One non-periodic argument sitting at the centre of its restraint: value `2.0`,
`AT=[2.0]`, `KAPPA=[10.0]`, `SLOPE=[1.0]`. -/
def scenarioCentre : BiasRestraint :=
  { arguments := [{ value := 2.0, periodicity := .notperiodic, inputForce := 0 }],
    at_ := [2.0], kappa := [10.0], slope := [1.0], bias := 0, force2 := 0 }

/-- The single-argument restraint `(at[i], kappa[i], slope[i])` on argument `i` alone;
its one argument has the index `0`. -/
def single (self : BiasRestraint) (i : Nat) : BiasRestraint :=
  { arguments := (self.arguments[i]?).toList, at_ := (self.at_[i]?).toList,
    kappa := (self.kappa[i]?).toList, slope := (self.slope[i]?).toList,
    bias := 0, force2 := 0 }

/-- The construction invariant: `at`, `kappa` and `slope` have one entry per argument. -/
def Sized (self : BiasRestraint) : Prop :=
  self.at_.length = self.getNumberOfArguments ∧
  self.kappa.length = self.getNumberOfArguments ∧
  self.slope.length = self.getNumberOfArguments

instance (self : BiasRestraint) : Decidable self.Sized := by
  unfold Sized; infer_instance

/-! ### The constructor -/

/-- Modelled from the spec: what the constructor reads from its `ActionOptions` (the
keyword parser is not among the sources), section 6: `ARG` selects the arguments,
`AT`, `KAPPA` and `SLOPE` are lists of reals that may be absent; `unread` holds the
words of the input line that no keyword consumes. -/
structure ActionOptions where
  ARG : List Value
  SLOPE : Option (List ℚ)
  KAPPA : Option (List ℚ)
  AT : Option (List ℚ)
  unread : List String

/-- Modelled from the spec: `parseVector(key, v)` (not among the sources): the values
given for the keyword replace `v`; "each array defaults ... if unspecified", that is,
`v` keeps its initial content when the keyword is absent. -/
def parseVector (key : Option (List ℚ)) (v : List ℚ) : List ℚ :=
  match key with
  | some xs => xs
  | none => v

/-- The macro `assert(c)` of `<cassert>`. `NDEBUG` is the build configuration, a
parameter: when `NDEBUG` is defined the macro expands to nothing and `c` is not tested;
otherwise it stops with the asserted condition when `c` is false. -/
def assert (NDEBUG : Bool) (c : Bool) (condition : String) : Except Failure Unit :=
  if NDEBUG then .ok () else if c then .ok () else .error (.assertion condition)

/-- Modelled from the spec: `checkRead()` (not among the sources): malformed keyword
input is a fatal configuration error at construction (section 7); here, words of the
input line that were not consumed. -/
def checkRead (ao : ActionOptions) : Except Failure Unit :=
  if ao.unread.isEmpty then .ok () else .error .plumed_error

/-- The constructor `BiasRestraint::BiasRestraint(const ActionOptions&)`: `at(0)`,
`kappa(n,0.0)`, `slope(n,0.0)` with `n = getNumberOfArguments()`, then the three
`parseVector`/`assert` pairs in the order `SLOPE`, `KAPPA`, `AT`, then `checkRead()`
and the two `addValue` calls. Line 54 of the source lacks the comma between the
initialisers of `kappa` and `slope`; they are read as the two initialisers they are
meant to be. The log output is not modelled. `NDEBUG` tells whether the program was built
with `NDEBUG` defined, which decides what the three `assert` do. -/
def new (NDEBUG : Bool) (ao : ActionOptions) : Except Failure BiasRestraint := do
  let arguments := ao.ARG
  let at_ : List ℚ := List.replicate 0 0
  let kappa : List ℚ := List.replicate arguments.length 0.0
  let slope : List ℚ := List.replicate arguments.length 0.0
  let slope := parseVector ao.SLOPE slope
  assert NDEBUG (slope.length == arguments.length) "slope.size()==getNumberOfArguments()"
  let kappa := parseVector ao.KAPPA kappa
  assert NDEBUG (kappa.length == arguments.length) "kappa.size()==getNumberOfArguments()"
  let at_ := parseVector ao.AT at_
  assert NDEBUG (at_.length == arguments.length) "at.size()==getNumberOfArguments()"
  checkRead ao
  pure { arguments := arguments, at_ := at_, kappa := kappa, slope := slope,
         bias := 0, force2 := 0 }

/-- An input line `ARG=x1,x2 AT=1.0,1.5 KAPPA=150.0,150.0` over two non-periodic
arguments, as in the example of the documentation. -/
def optionsGood : ActionOptions :=
  { ARG := [{ value := 0, periodicity := .notperiodic, inputForce := 0 },
            { value := 0, periodicity := .notperiodic, inputForce := 0 }],
    SLOPE := none, KAPPA := some [150.0, 150.0], AT := some [1.0, 1.5], unread := [] }

/-- The same input with `KAPPA` left out as well: only `AT` is given. -/
def optionsOnlyAT : ActionOptions :=
  { optionsGood with KAPPA := none }

/-- The same input with a single `AT` value for two arguments. -/
def optionsShortAT : ActionOptions :=
  { optionsGood with AT := some [1.0] }

/-- The same input with three `KAPPA` values for two arguments. -/
def optionsLongKAPPA : ActionOptions :=
  { optionsGood with KAPPA := some [150.0, 150.0, 150.0] }

/-- The same input with an empty `SLOPE` list for two arguments. -/
def optionsEmptySLOPE : ActionOptions :=
  { optionsGood with SLOPE := some [] }

end BiasRestraint

/-! ## `analysis::AnalysisBase` -/

namespace analysis

/-- Modelled from the spec: a `ReferenceConfiguration*` (the class is only declared in
the header): "an opaque per-data-point structure"; a handle. -/
structure ReferenceConfiguration where
  handle : Nat
  deriving DecidableEq, Repr

/-- Modelled from the spec: the `plumed_error()` macro (not among the sources): calling
it "is fatal, not recoverable"; it never returns. -/
def plumed_error : Except Failure Unit :=
  .error .plumed_error

/-- The virtual queries of `AnalysisBase` that the dynamic class of a node overrides:
`some f` when the class of the node has its own implementation `f`, `none` when the
node uses the implementation of `AnalysisBase`; "a subclass overrides exactly the
subset it changes". The subclasses themselves are not among the sources. -/
structure Overrides where
  getNumberOfDataPoints : Option (Except Failure Nat)
  getDataPointIndexInBase : Option (Nat → Except Failure Nat)
  getWeight : Option (Nat → Except Failure ℚ)
  getMetricName : Option (Except Failure String)
  usingMemory : Option (Except Failure Bool)
  getNormalization : Option (Except Failure ℚ)
  dissimilaritiesWereSet : Option (Except Failure Bool)
  getDissimilarity : Option (Nat → Nat → Except Failure ℚ)
  getArguments : Option (Except Failure (List Value))
  getDataPoint : Option (Nat → List ℚ → ℚ → Except Failure (List ℚ × ℚ))
  getReferenceConfiguration : Option (Nat → Bool → Except Failure ReferenceConfiguration)

/-- The class that overrides no query. -/
def Overrides.empty : Overrides :=
  { getNumberOfDataPoints := Option.none, getDataPointIndexInBase := Option.none,
    getWeight := Option.none, getMetricName := Option.none, usingMemory := Option.none,
    getNormalization := Option.none, dissimilaritiesWereSet := Option.none,
    getDissimilarity := Option.none, getArguments := Option.none, getDataPoint := Option.none,
    getReferenceConfiguration := Option.none }

/-- An analysis node: the members `use_all_data`, `freq` and `my_input_data` of
`AnalysisBase` (`my_input_data` is a pointer: `none` is the null pointer), the two
request locks of its bases `ActionAtomistic` and `ActionWithArguments`, and the
overrides of its dynamic class. -/
inductive AnalysisBase where
  | mk (use_all_data : Bool) (freq : Nat) (my_input_data : Option AnalysisBase)
      (lockRequestAtoms : Bool) (lockRequestArguments : Bool) (overrides : Overrides)

namespace AnalysisBase

/-- The member `use_all_data`. -/
def use_all_data : AnalysisBase → Bool
  | mk u _ _ _ _ _ => u

/-- The member `freq`. -/
def freq : AnalysisBase → Nat
  | mk _ f _ _ _ _ => f

/-- The member `my_input_data`. -/
def my_input_data : AnalysisBase → Option AnalysisBase
  | mk _ _ up _ _ _ => up

/-- The request lock of the base `ActionAtomistic`. -/
def lockRequestAtoms : AnalysisBase → Bool
  | mk _ _ _ l _ _ => l

/-- The request lock of the base `ActionWithArguments`. -/
def lockRequestArguments : AnalysisBase → Bool
  | mk _ _ _ _ l _ => l

/-- The overrides of the dynamic class of the node. -/
def overrides : AnalysisBase → Overrides
  | mk _ _ _ _ _ ov => ov

/-- The virtual call `getNumberOfDataPoints()`; without an override it is
`AnalysisBase::getNumberOfDataPoints`: `return my_input_data->getNumberOfDataPoints();`. -/
def getNumberOfDataPoints : AnalysisBase → Except Failure Nat
  | mk _ _ up _ _ ov =>
    match ov.getNumberOfDataPoints with
    | some r => r
    | none =>
      match up with
      | none => .error .nullPointer
      | some u => u.getNumberOfDataPoints

/-- The virtual call `getDataPointIndexInBase(idata)`; without an override:
`return my_input_data->getDataPointIndexInBase( idata );`. -/
def getDataPointIndexInBase : AnalysisBase → Nat → Except Failure Nat
  | mk _ _ up _ _ ov, idata =>
    match ov.getDataPointIndexInBase with
    | some f => f idata
    | none =>
      match up with
      | none => .error .nullPointer
      | some u => u.getDataPointIndexInBase idata

/-- The virtual call `getMetricName()`; without an override:
`return my_input_data->getMetricName();`. -/
def getMetricName : AnalysisBase → Except Failure String
  | mk _ _ up _ _ ov =>
    match ov.getMetricName with
    | some r => r
    | none =>
      match up with
      | none => .error .nullPointer
      | some u => u.getMetricName

/-- The virtual call `getWeight(idata)`; without an override:
`return my_input_data->getWeight( idata );`. -/
def getWeight : AnalysisBase → Nat → Except Failure ℚ
  | mk _ _ up _ _ ov, idata =>
    match ov.getWeight with
    | some f => f idata
    | none =>
      match up with
      | none => .error .nullPointer
      | some u => u.getWeight idata

/-- The virtual call `usingMemory()`; without an override:
`return my_input_data->usingMemory();`. -/
def usingMemory : AnalysisBase → Except Failure Bool
  | mk _ _ up _ _ ov =>
    match ov.usingMemory with
    | some r => r
    | none =>
      match up with
      | none => .error .nullPointer
      | some u => u.usingMemory

/-- The virtual call `getNormalization()`; without an override:
`return my_input_data->getNormalization();`. -/
def getNormalization : AnalysisBase → Except Failure ℚ
  | mk _ _ up _ _ ov =>
    match ov.getNormalization with
    | some r => r
    | none =>
      match up with
      | none => .error .nullPointer
      | some u => u.getNormalization

/-- The virtual call `dissimilaritiesWereSet()`; without an override:
`return my_input_data->dissimilaritiesWereSet();`. -/
def dissimilaritiesWereSet : AnalysisBase → Except Failure Bool
  | mk _ _ up _ _ ov =>
    match ov.dissimilaritiesWereSet with
    | some r => r
    | none =>
      match up with
      | none => .error .nullPointer
      | some u => u.dissimilaritiesWereSet

/-- The virtual call `getDissimilarity(i, j)`; without an override:
`return my_input_data->getDissimilarity( i, j );`. -/
def getDissimilarity : AnalysisBase → Nat → Nat → Except Failure ℚ
  | mk _ _ up _ _ ov, i, j =>
    match ov.getDissimilarity with
    | some f => f i j
    | none =>
      match up with
      | none => .error .nullPointer
      | some u => u.getDissimilarity i j

/-- The virtual call `getArguments()`; without an override:
`return my_input_data->getArguments();`. -/
def getArguments : AnalysisBase → Except Failure (List Value)
  | mk _ _ up _ _ ov =>
    match ov.getArguments with
    | some r => r
    | none =>
      match up with
      | none => .error .nullPointer
      | some u => u.getArguments

/-- The virtual call `getDataPoint(idata, point, weight)`; the result is the content of
the two output parameters `point` and `weight` after the call. Without an override:
`my_input_data->getDataPoint( idata, point, weight );`. -/
def getDataPoint : AnalysisBase → Nat → List ℚ → ℚ → Except Failure (List ℚ × ℚ)
  | mk _ _ up _ _ ov, idata, point, weight =>
    match ov.getDataPoint with
    | some f => f idata point weight
    | none =>
      match up with
      | none => .error .nullPointer
      | some u => u.getDataPoint idata point weight

/-- The virtual call `getReferenceConfiguration(idata, calcdist)`; without an override:
`return my_input_data->getReferenceConfiguration( idata, calcdist );`. -/
def getReferenceConfiguration :
    AnalysisBase → Nat → Bool → Except Failure ReferenceConfiguration
  | mk _ _ up _ _ ov, idata, calcdist =>
    match ov.getReferenceConfiguration with
    | some f => f idata calcdist
    | none =>
      match up with
      | none => .error .nullPointer
      | some u => u.getReferenceConfiguration idata calcdist

/-- `bool isPeriodic(){ plumed_error(); return false; }`. -/
def isPeriodic (_self : AnalysisBase) : Except Failure Bool := do
  plumed_error
  return false

/-- `unsigned getNumberOfDerivatives(){ plumed_error(); return 0; }`. -/
def getNumberOfDerivatives (_self : AnalysisBase) : Except Failure Nat := do
  plumed_error
  return 0

/-- `void calculateNumericalDerivatives( ActionWithValue* a=NULL ){ plumed_error(); }`;
the pointer `a` is a handle, `none` for `NULL`. -/
def calculateNumericalDerivatives (_self : AnalysisBase) (_a : Option Nat) :
    Except Failure Unit := do
  plumed_error

/-- `confirmStride(istride, all)`: `freq=istride; use_all_data=all;` (the conversion of
the `unsigned` `all` to `bool` is `all != 0`). -/
def confirmStride : AnalysisBase → Nat → Nat → AnalysisBase
  | mk _ _ up la lg ov, istride, all => mk (all != 0) istride up la lg ov

/-- Modelled from the spec: `ActionAtomistic::lockRequests()` (not among the sources):
locks the atom selection list. -/
def lockRequestsAtomistic : AnalysisBase → AnalysisBase
  | mk u f up _ lg ov => mk u f up true lg ov

/-- Modelled from the spec: `ActionWithArguments::lockRequests()` (not among the
sources): locks the argument selection list. -/
def lockRequestsWithArguments : AnalysisBase → AnalysisBase
  | mk u f up la _ ov => mk u f up la true ov

/-- Modelled from the spec: `ActionAtomistic::unlockRequests()` (not among the sources):
unlocks the atom selection list. -/
def unlockRequestsAtomistic : AnalysisBase → AnalysisBase
  | mk u f up _ lg ov => mk u f up false lg ov

/-- Modelled from the spec: `ActionWithArguments::unlockRequests()` (not among the
sources): unlocks the argument selection list. -/
def unlockRequestsWithArguments : AnalysisBase → AnalysisBase
  | mk u f up la _ ov => mk u f up la false ov

/-- `AnalysisBase::lockRequests`: `ActionAtomistic::lockRequests();` then
`ActionWithArguments::lockRequests();`. -/
def lockRequests (self : AnalysisBase) : AnalysisBase :=
  lockRequestsWithArguments (lockRequestsAtomistic self)

/-- `AnalysisBase::unlockRequests`: `ActionAtomistic::unlockRequests();` then
`ActionWithArguments::unlockRequests();`. -/
def unlockRequests (self : AnalysisBase) : AnalysisBase :=
  unlockRequestsWithArguments (unlockRequestsAtomistic self)

/-- The virtual call of one query on a node, followed to the implementation that
answers it, with the number of forwarding steps on the way: `sel` picks the query in the
override table of a class; a node whose class has its own implementation answers with
it in no step, any other node runs the body of `AnalysisBase`, one forwarding step to
`my_input_data`. The eleven queries above are this call followed by the application of
the implementation to the arguments. -/
def dispatch {β : Type} (sel : Overrides → Option β) : AnalysisBase → Except Failure (β × Nat)
  | mk _ _ up _ _ ov =>
    match sel ov with
    | some impl => .ok (impl, 0)
    | none =>
      match up with
      | none => .error .nullPointer
      | some u =>
        match dispatch sel u with
        | .ok r => .ok (r.1, r.2 + 1)
        | .error e => .error e

/-- The chain `root <- n1 <- ... <- nk` with `n = nk`: `k` upstream links lead from `n`
to `root`, and none of the `k` nodes `n1 .. nk` overrides the query picked by `sel`. -/
def forwardsTo {β : Type} (sel : Overrides → Option β) (root : AnalysisBase) :
    Nat → AnalysisBase → Prop
  | 0, n => n = root
  | k + 1, n => sel n.overrides = none ∧
      ∃ m, n.my_input_data = some m ∧ forwardsTo sel root k m

/-! ### Example chains -/

/-- A root data collector: no upstream, every query answered by its own class; its
dissimilarities are set. -/
def collector : AnalysisBase :=
  mk false 1 none false false
    { getNumberOfDataPoints := some (.ok 3),
      getDataPointIndexInBase := some (fun idata => .ok idata),
      getWeight := some (fun idata => .ok (1 + idata)),
      getMetricName := some (.ok "EUCLIDEAN"),
      usingMemory := some (.ok false),
      getNormalization := some (.ok 6),
      dissimilaritiesWereSet := some (.ok true),
      getDissimilarity := some (fun i j => .ok (((i : ℚ) - j) ^ 2)),
      getArguments := some (.ok []),
      getDataPoint := some (fun idata _ _ => .ok ([(idata : ℚ)], 1 + idata)),
      getReferenceConfiguration := some (fun idata _ => .ok { handle := idata }) }

/-- A node on top of `collector` whose class overrides nothing. -/
def stage : AnalysisBase :=
  mk false 1 (some collector) false false Overrides.empty

/-- A node on top of `collector` whose class overrides `dissimilaritiesWereSet` alone,
answering `false`. -/
def stageUnset : AnalysisBase :=
  mk false 1 (some collector) false false
    { Overrides.empty with dissimilaritiesWereSet := some (.ok false) }

/-- A root whose dissimilarities are not set and whose `getDissimilarity` raises the
fatal error. -/
def collectorUnset : AnalysisBase :=
  mk false 1 none false false
    { Overrides.empty with
      dissimilaritiesWereSet := some (.ok false),
      getDissimilarity := some (fun _ _ => .error .plumed_error) }

/-- A node on top of `collectorUnset` whose class overrides nothing. -/
def stageOnUnset : AnalysisBase :=
  mk false 1 (some collectorUnset) false false Overrides.empty

/-- A second node whose class overrides nothing, on top of `stage`: the chain
`collector <- stage <- stageTwo`. -/
def stageTwo : AnalysisBase :=
  mk true 5 (some stage) false false Overrides.empty

/-- A root whose class overrides nothing. -/
def bareRoot : AnalysisBase :=
  mk false 1 none false false Overrides.empty

end AnalysisBase

end analysis

/-! ## Theorems: `BiasRestraint` -/

namespace BiasRestraint

/-- One iteration of the loop, when the four reads at index `i` are in range. -/
theorem calculateBody_eq (difference : Nat → ℚ → ℚ → ℚ) (st : Locals) (i : Nat)
    (a k m : ℚ) (v : Value)
    (ha : st.self.at_[i]? = some a) (hv : st.self.arguments[i]? = some v)
    (hk : st.self.kappa[i]? = some k) (hm : st.self.slope[i]? = some m) :
    calculateBody difference st i = some
      { self := { st.self with
          arguments := st.self.arguments.set i
            { v with inputForce := v.inputForce + -(k * difference i a v.value + m) } },
        ene := st.ene + (0.5 * k * difference i a v.value * difference i a v.value
          + m * difference i a v.value),
        totf2 := st.totf2 + -(k * difference i a v.value + m) * -(k * difference i a v.value + m) } := by
  simp [calculateBody, getArgument, setOutputForces, ha, hv, hk, hm]

/-- Reading a list in range: the optional read and the defaulted read agree. -/
theorem getElem?_eq_some_getD (l : List ℚ) (i : Nat) (h : i < l.length) :
    l[i]? = some (l.getD i 0) := by
  simp [List.getD, List.getElem?_eq_getElem h]

/-- The state of the loop of `calculate` after the indices `0 .. j-1`. -/
theorem loop_spec (difference : Nat → ℚ → ℚ → ℚ) (self : BiasRestraint) (h : self.Sized)
    (j : Nat) (hj : j ≤ self.getNumberOfArguments) :
    ∃ st : Locals,
      (List.range j).foldlM (calculateBody difference) { self := self, ene := 0.0, totf2 := 0.0 }
        = some st ∧
      st.self.at_ = self.at_ ∧ st.self.kappa = self.kappa ∧ st.self.slope = self.slope ∧
      st.self.bias = self.bias ∧ st.self.force2 = self.force2 ∧
      (∀ i, st.self.arguments[i]? = (self.arguments[i]?).map (fun v =>
        if i < j then { v with inputForce := v.inputForce + force difference self i } else v)) ∧
      st.ene = ∑ i ∈ Finset.range j, energy difference self i ∧
      st.totf2 = ∑ i ∈ Finset.range j, force difference self i ^ 2 := by
  induction j with
  | zero =>
    refine ⟨_, rfl, rfl, rfl, rfl, rfl, rfl, ?_, ?_, ?_⟩
    · intro i; cases self.arguments[i]? <;> simp
    · norm_num
    · norm_num
  | succ j ih =>
    obtain ⟨st, hfold, hat, hk, hm, hb, hf2, hargs, hene, htot⟩ := ih (Nat.le_of_succ_le hj)
    obtain ⟨h1, h2, h3⟩ := h
    have hjn : j < self.arguments.length := hj
    have hja : self.at_[j]? = some (self.at_.getD j 0) :=
      getElem?_eq_some_getD _ _ (by rw [h1]; exact hjn)
    have hjk : self.kappa[j]? = some (self.kappa.getD j 0) :=
      getElem?_eq_some_getD _ _ (by rw [h2]; exact hjn)
    have hjm : self.slope[j]? = some (self.slope.getD j 0) :=
      getElem?_eq_some_getD _ _ (by rw [h3]; exact hjn)
    have hjv : st.self.arguments[j]? = some (self.arguments[j]) := by
      rw [hargs j, List.getElem?_eq_getElem hjn]; simp
    have hval : (self.arguments.map Value.value).getD j 0 = (self.arguments[j]).value := by
      simp [List.getD, List.getElem?_eq_getElem hjn]
    have hbody := calculateBody_eq difference st j _ _ _ _
      (by rw [hat]; exact hja) hjv (by rw [hk]; exact hjk) (by rw [hm]; exact hjm)
    have hfold' : (List.range (j + 1)).foldlM (calculateBody difference)
        { self := self, ene := 0.0, totf2 := 0.0 } = calculateBody difference st j := by
      rw [List.range_succ, List.foldlM_append, hfold]
      simp
    rw [hbody] at hfold'
    refine ⟨_, hfold', hat, hk, hm, hb, hf2, ?_, ?_, ?_⟩
    · intro i
      have hlen : st.self.arguments.length = self.arguments.length := by
        have key : ∀ n, st.self.arguments.length ≤ n ↔ self.arguments.length ≤ n := by
          intro n
          rw [← List.getElem?_eq_none_iff, ← List.getElem?_eq_none_iff, hargs n]
          simp
        have k1 := key st.self.arguments.length
        have k2 := key self.arguments.length
        omega
      simp only [List.getElem?_set]
      by_cases hij : j = i
      · subst hij
        simp [hlen, hjn, List.getElem?_eq_getElem hjn, force, cv, hval]
      · rw [if_neg hij, hargs i]
        have : (i < j + 1) = (i < j) := by
          apply propext; constructor <;> intro <;> omega
        simp only [this]
    · rw [Finset.sum_range_succ, ← hene]
      simp only [energy, cv, hval]
      ring
    · rw [Finset.sum_range_succ, ← htot]
      simp only [force, cv, hval]
      ring

/-- What `calculate` returns on a well-sized restraint: the forces are added to the
accumulators, `bias` and `force2` are the two sums, nothing else changes. -/
theorem calculate_spec (difference : Nat → ℚ → ℚ → ℚ) (self : BiasRestraint) (h : self.Sized) :
    calculate difference self = some
      { self with
        arguments := addForces self.arguments
          ((List.range self.getNumberOfArguments).map (force difference self)),
        bias := ∑ i ∈ Finset.range self.getNumberOfArguments, energy difference self i,
        force2 := ∑ i ∈ Finset.range self.getNumberOfArguments, force difference self i ^ 2 } := by
  obtain ⟨st, hfold, hat, hk, hm, hb, hf2, hargs, hene, htot⟩ :=
    loop_spec difference self h _ (le_refl _)
  have harg : st.self.arguments = addForces self.arguments
      ((List.range self.getNumberOfArguments).map (force difference self)) := by
    apply List.ext_getElem?
    intro i
    rw [hargs i]
    simp only [addForces, List.getElem?_zipWith, List.getElem?_map]
    by_cases hi : i < self.getNumberOfArguments
    · have hi' : i < self.arguments.length := hi
      simp [List.getElem?_eq_getElem hi', List.getElem?_range hi, hi]
    · have hi' : self.arguments.length ≤ i := Nat.le_of_not_lt hi
      simp [List.getElem?_eq_none hi']
  simp only [calculate, hfold, Option.bind_eq_bind, Option.some_bind]
  rw [← hat, ← hk, ← hm, ← harg, hene, htot]

/-- The accumulators after adding forces: entry by entry, old content plus force. -/
theorem map_inputForce_addForces (arguments : List Value) (f : Nat → ℚ) :
    (addForces arguments ((List.range arguments.length).map f)).map Value.inputForce
      = (List.range arguments.length).map
          (fun i => (arguments.map Value.inputForce).getD i 0 + f i) := by
  apply List.ext_getElem?
  intro i
  simp only [addForces, List.getElem?_map, List.getElem?_zipWith]
  by_cases hi : i < arguments.length
  · simp [List.getElem?_eq_getElem hi, List.getElem?_range hi, List.getD]
  · have hi' : arguments.length ≤ i := Nat.le_of_not_lt hi
    have hr : (List.range arguments.length)[i]? = none :=
      List.getElem?_eq_none (by simpa using hi')
    simp [List.getElem?_eq_none hi', hr]

/-- C1: on a restraint whose `at`, `kappa` and `slope` have one entry per argument,
`calculate` returns, and it has written for every argument `i` the force
`-(kappa[i]*cv[i] + slope[i])` with `cv[i] = difference(i, at[i], value[i])`: the
accumulator of argument `i` holds its former content plus that force, so from
accumulators that were reset to zero it holds exactly that force. -/
theorem calculate_writes_forces (difference : Nat → ℚ → ℚ → ℚ) (self : BiasRestraint)
    (h : self.Sized) :
    (calculate difference self).map inputForces = some
      ((List.range self.getNumberOfArguments).map (fun i =>
        self.inputForces.getD i 0
          + -(self.kappa.getD i 0 * cv difference self i + self.slope.getD i 0))) ∧
    ((∀ v ∈ self.arguments, v.inputForce = 0) →
      (calculate difference self).map inputForces = some
        ((List.range self.getNumberOfArguments).map (fun i =>
          -(self.kappa.getD i 0 * cv difference self i + self.slope.getD i 0)))) := by
  have key : (calculate difference self).map inputForces = some
      ((List.range self.getNumberOfArguments).map (fun i =>
        self.inputForces.getD i 0
          + -(self.kappa.getD i 0 * cv difference self i + self.slope.getD i 0))) := by
    rw [calculate_spec difference self h]
    simp only [Option.map_some', inputForces, getNumberOfArguments]
    rw [map_inputForce_addForces]
    rfl
  refine ⟨key, fun hz => ?_⟩
  rw [key]
  congr 1
  apply List.map_congr_left
  intro i hi
  have hi' : i < self.arguments.length := by simpa [getNumberOfArguments] using hi
  have : self.inputForces.getD i 0 = 0 := by
    simp only [inputForces, List.getD_eq_getElem?_getD, List.getElem?_map,
      List.getElem?_eq_getElem hi', Option.map_some', Option.getD_some]
    exact hz _ (List.getElem_mem hi')
  rw [this, zero_add]

/-- C1, the two-argument scenario: the forces written are `[-10, 10]`. -/
theorem calculate_writes_forces_witness :
    scenarioTwo.Sized ∧ (∀ v ∈ scenarioTwo.arguments, v.inputForce = 0) ∧
    (calculate (difference scenarioTwo.arguments) scenarioTwo).map inputForces
      = some [-10.0, 10.0] := by
  refine ⟨by decide, by simp [scenarioTwo], ?_⟩
  rw [(calculate_writes_forces (difference scenarioTwo.arguments) scenarioTwo (by decide)).2
    (by simp [scenarioTwo])]
  norm_num [scenarioTwo, getNumberOfArguments, List.range, List.range.loop, cv, difference,
    Value.difference]

/-- When every argument is non-periodic the displacement is value minus centre. -/
theorem cv_notperiodic (self : BiasRestraint)
    (hp : ∀ v ∈ self.arguments, v.periodicity = Periodicity.notperiodic) (i : Nat) :
    cv (difference self.arguments) self i = self.values.getD i 0 - self.at_.getD i 0 := by
  unfold cv difference values
  cases hv : self.arguments[i]? with
  | none => rfl
  | some v =>
    have hmem : v ∈ self.arguments := by
      obtain ⟨hlt, hget⟩ := List.getElem?_eq_some.mp hv
      rw [← hget]
      exact List.getElem_mem hlt
    simp [Value.difference, hp v hmem]

/-- C2: on a restraint whose `at`, `kappa` and `slope` have one entry per argument,
`calculate` returns and the value it publishes as `bias` is the sum over the arguments
of `0.5*kappa[i]*cv[i]^2 + slope[i]*cv[i]`, with `cv[i] = difference(i, at[i], value[i])`;
when every argument is non-periodic this is the documented potential
`sum_i k_i/2 (x_i-a_i)^2 + m_i (x_i-a_i)`. -/
theorem calculate_publishes_bias (difference : Nat → ℚ → ℚ → ℚ) (self : BiasRestraint)
    (h : self.Sized) :
    (calculate difference self).map bias = some
      (∑ i ∈ Finset.range self.getNumberOfArguments,
        (0.5 * self.kappa.getD i 0 * cv difference self i ^ 2
          + self.slope.getD i 0 * cv difference self i)) ∧
    ((∀ v ∈ self.arguments, v.periodicity = Periodicity.notperiodic) →
      (calculate (PLMD.difference self.arguments) self).map bias = some
        (∑ i ∈ Finset.range self.getNumberOfArguments,
          (self.kappa.getD i 0 / 2 * (self.values.getD i 0 - self.at_.getD i 0) ^ 2
            + self.slope.getD i 0 * (self.values.getD i 0 - self.at_.getD i 0)))) := by
  refine ⟨?_, fun hp => ?_⟩
  · rw [calculate_spec difference self h]
    rfl
  · rw [calculate_spec _ self h]
    simp only [Option.map_some', energy, cv_notperiodic self hp]
    congr 1
    apply Finset.sum_congr rfl
    intro i _
    rw [show (0.5 : ℚ) = 1 / 2 by norm_num]
    ring

/-- C2, the one-argument scenario: the published `bias` is `6`. -/
theorem calculate_publishes_bias_witness :
    scenarioOne.Sized ∧
    (calculate (difference scenarioOne.arguments) scenarioOne).map bias = some 6.0 := by
  refine ⟨by decide, ?_⟩
  rw [(calculate_publishes_bias (difference scenarioOne.arguments) scenarioOne (by decide)).1]
  norm_num [scenarioOne, getNumberOfArguments, cv, difference, Value.difference]

/-- C3: on a restraint whose `at`, `kappa` and `slope` have one entry per argument,
`calculate` returns and the value it publishes as `force2` is the sum over the
arguments of the squares of the forces this same call wrote: the force written for
argument `i` is what the call added to the accumulator of argument `i`, and it is
`-(kappa[i]*cv[i] + slope[i])`. -/
theorem calculate_publishes_force2 (difference : Nat → ℚ → ℚ → ℚ) (self : BiasRestraint)
    (h : self.Sized) :
    ∃ after : BiasRestraint, calculate difference self = some after ∧
      after.force2 = ∑ i ∈ Finset.range self.getNumberOfArguments,
        (after.inputForces.getD i 0 - self.inputForces.getD i 0) ^ 2 ∧
      after.force2 = ∑ i ∈ Finset.range self.getNumberOfArguments,
        (-(self.kappa.getD i 0 * cv difference self i + self.slope.getD i 0)) ^ 2 := by
  refine ⟨_, calculate_spec difference self h, ?_, rfl⟩
  dsimp only
  apply Finset.sum_congr rfl
  intro i hi
  have hi' : i < self.arguments.length := by simpa [getNumberOfArguments] using hi
  simp only [inputForces, getNumberOfArguments, map_inputForce_addForces]
  simp [List.getD_eq_getElem?_getD, List.getElem?_range hi', List.getElem?_eq_getElem hi']

/-- C3, the two scenarios: `force2 = 121` with force `-11`, and `force2 = 200` with
forces `-10` and `10`. -/
theorem calculate_publishes_force2_witness :
    (scenarioOne.Sized ∧ ∃ after, calculate (difference scenarioOne.arguments) scenarioOne
        = some after ∧ after.force2 = 121.0 ∧ after.inputForces = [-11.0]) ∧
    (scenarioTwo.Sized ∧ ∃ after, calculate (difference scenarioTwo.arguments) scenarioTwo
        = some after ∧ after.force2 = 200.0 ∧ after.inputForces = [-10.0, 10.0]) := by
  refine ⟨⟨by decide, ?_⟩, ⟨by decide, ?_⟩⟩
  · obtain ⟨after, hc, -, hf⟩ :=
      calculate_publishes_force2 (difference scenarioOne.arguments) scenarioOne (by decide)
    refine ⟨after, hc, ?_, ?_⟩
    · rw [hf]
      norm_num [scenarioOne, getNumberOfArguments, cv, difference, Value.difference]
    · rw [calculate_spec _ _ (by decide)] at hc
      rw [← Option.some.inj hc]
      norm_num [scenarioOne, getNumberOfArguments, inputForces, addForces, force, cv, difference,
        Value.difference, List.range, List.range.loop]
  · obtain ⟨after, hc, -, hf⟩ :=
      calculate_publishes_force2 (difference scenarioTwo.arguments) scenarioTwo (by decide)
    refine ⟨after, hc, ?_, ?_⟩
    · rw [hf]
      norm_num [scenarioTwo, getNumberOfArguments, Finset.sum_range_succ, cv, difference,
        Value.difference]
    · rw [calculate_spec _ _ (by decide)] at hc
      rw [← Option.some.inj hc]
      norm_num [scenarioTwo, getNumberOfArguments, inputForces, addForces, force, cv, difference,
        Value.difference, List.range, List.range.loop]

/-- The derivative of one harmonic + linear term, plus a constant. -/
theorem hasDerivAt_term (k m a C c : ℚ) :
    HasDerivAt (fun x : ℚ => (0.5 * k * (x - a) ^ 2 + m * (x - a)) + C) (k * (c - a) + m) c := by
  have h0 : HasDerivAt (fun x : ℚ => x - a) 1 c := (hasDerivAt_id c).sub_const a
  have h1 : HasDerivAt (fun x : ℚ => (x - a) ^ 2) (2 * (c - a)) c := by
    simpa using h0.pow 2
  have h2 := ((h1.const_mul (0.5 * k)).add (h0.const_mul m)).add_const C
  convert h2 using 1
  rw [show (0.5 : ℚ) = 1 / 2 by norm_num]
  ring

/-- Replacing the value of one argument keeps the sizes. -/
theorem withArgument_sized (self : BiasRestraint) (h : self.Sized) (i : Nat) (x : ℚ) :
    (self.withArgument i x).Sized := by
  unfold Sized getNumberOfArguments withArgument at *
  simpa using h

/-- The values after replacing the value of argument `i` by `x`. -/
theorem withArgument_value (self : BiasRestraint) (i j : Nat) (x : ℚ)
    (hj : j < self.arguments.length) :
    ((self.withArgument i x).arguments.map Value.value).getD j 0
      = if j = i then x else (self.arguments.map Value.value).getD j 0 := by
  simp only [withArgument, List.getD_eq_getElem?_getD, List.getElem?_map, List.getElem?_zipWith,
    List.getElem?_eq_getElem hj, List.getElem?_range hj]
  by_cases hji : j = i <;> simp [hji]

/-- Replacing a value leaves the periodicities, hence `difference`, as they were. -/
theorem difference_withArgument (self : BiasRestraint) (i : Nat) (x : ℚ) :
    difference (self.withArgument i x).arguments = difference self.arguments := by
  funext j a b
  simp only [difference, withArgument, List.getElem?_zipWith]
  by_cases hj : j < self.arguments.length
  · simp only [List.getElem?_eq_getElem hj, List.getElem?_range hj]
    by_cases hji : j = i <;> simp [hji, Value.difference]
  · have hj' : self.arguments.length ≤ j := Nat.le_of_not_lt hj
    simp [List.getElem?_eq_none hj']

/-- The displacement after replacing the value of argument `i` by `x`. -/
theorem cv_withArgument (self : BiasRestraint) (i j : Nat) (x : ℚ)
    (hj : j < self.arguments.length) :
    cv (difference (self.withArgument i x).arguments) (self.withArgument i x) j
      = if j = i then difference self.arguments i (self.at_.getD i 0) x
        else cv (difference self.arguments) self j := by
  rw [difference_withArgument]
  unfold cv
  rw [withArgument_value self i j x hj]
  by_cases hji : j = i
  · subst hji; simp [withArgument]
  · simp [hji, withArgument]

/-- C4: the force and the energy computed by `calculate` are consistent. On a restraint
whose `at`, `kappa` and `slope` have one entry per argument and for every argument `i`:
the published energy, as a function of the displacement of argument `i` alone (the
displacements of the other arguments held fixed), has at `cv[i]` the derivative
`kappa[i]*cv[i] + slope[i]`; the force written for argument `i` (what the call adds to
its accumulator) is the negative of that; and for a non-periodic argument the same
number is the derivative of the published energy with respect to the value of the
argument itself. -/
theorem force_is_negative_gradient (difference : Nat → ℚ → ℚ → ℚ) (self : BiasRestraint)
    (h : self.Sized) (i : Nat) (hi : i < self.getNumberOfArguments) :
    HasDerivAt
      (fun x : ℚ => ((calculate (fun j a b => if j = i then x else difference j a b) self).map
        bias).getD 0)
      (self.kappa.getD i 0 * cv difference self i + self.slope.getD i 0)
      (cv difference self i) ∧
    (calculate difference self).map
        (fun after => after.inputForces.getD i 0 - self.inputForces.getD i 0)
      = some (-(self.kappa.getD i 0 * cv difference self i + self.slope.getD i 0)) ∧
    ((self.arguments[i]?).map Value.periodicity = some Periodicity.notperiodic →
      cv (PLMD.difference self.arguments) self i = self.values.getD i 0 - self.at_.getD i 0 ∧
      HasDerivAt
        (fun x : ℚ => ((calculate (PLMD.difference (self.withArgument i x).arguments)
          (self.withArgument i x)).map bias).getD 0)
        (self.kappa.getD i 0 * cv (PLMD.difference self.arguments) self i
          + self.slope.getD i 0)
        (self.values.getD i 0)) := by
  have hi' : i < self.arguments.length := hi
  have hmem : i ∈ Finset.range self.getNumberOfArguments := Finset.mem_range.mpr hi
  refine ⟨?_, ?_, ?_⟩
  · have hfun : (fun x : ℚ => ((calculate (fun j a b => if j = i then x else difference j a b)
        self).map bias).getD 0)
        = fun x : ℚ => (0.5 * self.kappa.getD i 0 * (x - 0) ^ 2 + self.slope.getD i 0 * (x - 0))
          + ∑ j ∈ (Finset.range self.getNumberOfArguments).erase i, energy difference self j := by
      funext x
      rw [calculate_spec _ self h]
      simp only [Option.map_some', Option.getD_some]
      rw [← Finset.add_sum_erase _ _ hmem]
      congr 1
      · simp [energy, cv]
      · apply Finset.sum_congr rfl
        intro j hj
        have hji : j ≠ i := (Finset.mem_erase.mp hj).1
        simp [energy, cv, hji]
    rw [hfun]
    simpa using hasDerivAt_term (self.kappa.getD i 0) (self.slope.getD i 0) 0
      (∑ j ∈ (Finset.range self.getNumberOfArguments).erase i, energy difference self j)
      (cv difference self i)
  · rw [calculate_spec difference self h]
    simp only [Option.map_some', inputForces, getNumberOfArguments, map_inputForce_addForces]
    simp [List.getD_eq_getElem?_getD, List.getElem?_range hi', List.getElem?_eq_getElem hi', force]
  · intro hp
    have hD : ∀ a b : ℚ, PLMD.difference self.arguments i a b = b - a := by
      intro a b
      unfold PLMD.difference
      rw [List.getElem?_eq_getElem hi'] at hp ⊢
      simp only [Option.map_some', Option.some.injEq] at hp
      simp [Value.difference, hp]
    have hcv : cv (PLMD.difference self.arguments) self i
        = self.values.getD i 0 - self.at_.getD i 0 := by
      unfold cv values
      rw [hD]
    refine ⟨hcv, ?_⟩
    have hfun : (fun x : ℚ => ((calculate (PLMD.difference (self.withArgument i x).arguments)
        (self.withArgument i x)).map bias).getD 0)
        = fun x : ℚ => (0.5 * self.kappa.getD i 0 * (x - self.at_.getD i 0) ^ 2
            + self.slope.getD i 0 * (x - self.at_.getD i 0))
          + ∑ j ∈ (Finset.range self.getNumberOfArguments).erase i,
              energy (PLMD.difference self.arguments) self j := by
      funext x
      rw [calculate_spec _ _ (withArgument_sized self h i x)]
      simp only [Option.map_some', Option.getD_some]
      have hn : (self.withArgument i x).getNumberOfArguments = self.getNumberOfArguments := by
        simp [getNumberOfArguments, withArgument]
      rw [hn, ← Finset.add_sum_erase _ _ hmem]
      congr 1
      · simp only [energy, cv_withArgument self i i x hi', if_true, hD]
        simp [withArgument]
      · apply Finset.sum_congr rfl
        intro j hj
        have hji : j ≠ i := (Finset.mem_erase.mp hj).1
        have hjn : j < self.arguments.length := by
          have := Finset.mem_range.mp (Finset.mem_erase.mp hj).2
          simpa [getNumberOfArguments] using this
        simp only [energy, cv_withArgument self i j x hjn, if_neg hji]
        simp [withArgument]
    rw [hfun, hcv]
    exact hasDerivAt_term (self.kappa.getD i 0) (self.slope.getD i 0) (self.at_.getD i 0) _ _

/-- C4 on the one-argument scenario: at the value `3` the energy has slope `11` in the
value of the argument, and the force written is `-11`. -/
theorem force_is_negative_gradient_witness :
    scenarioOne.Sized ∧ 0 < scenarioOne.getNumberOfArguments ∧
    HasDerivAt
      (fun x : ℚ => ((calculate (difference (scenarioOne.withArgument 0 x).arguments)
        (scenarioOne.withArgument 0 x)).map bias).getD 0) 11 3 ∧
    (calculate (difference scenarioOne.arguments) scenarioOne).map
        (fun after => after.inputForces.getD 0 0 - scenarioOne.inputForces.getD 0 0)
      = some (-11) := by
  obtain ⟨-, h2, h3⟩ := force_is_negative_gradient (difference scenarioOne.arguments)
    scenarioOne (by decide) 0 (by decide)
  have e1 : scenarioOne.kappa.getD 0 0
      * cv (difference scenarioOne.arguments) scenarioOne 0 + scenarioOne.slope.getD 0 0 = 11 := by
    norm_num [scenarioOne, cv, difference, Value.difference]
  have e2 : scenarioOne.values.getD 0 0 = 3 := by
    norm_num [scenarioOne, values]
  rw [e1] at h2
  have h4 := (h3 (by simp [scenarioOne])).2
  rw [e1, e2] at h4
  exact ⟨by decide, by decide, h4, h2⟩

/-- Adding forces to the accumulators changes neither values nor periodicities. -/
theorem addForces_frame (arguments : List Value) (f : Nat → ℚ) :
    (addForces arguments ((List.range arguments.length).map f)).map Value.value
        = arguments.map Value.value ∧
    (addForces arguments ((List.range arguments.length).map f)).map Value.periodicity
        = arguments.map Value.periodicity := by
  constructor <;>
  · apply List.ext_getElem?
    intro i
    simp only [addForces, List.getElem?_map, List.getElem?_zipWith]
    by_cases hi : i < arguments.length
    · simp [List.getElem?_eq_getElem hi, List.getElem?_range hi]
    · have hi' : arguments.length ≤ i := Nat.le_of_not_lt hi
      simp [List.getElem?_eq_none hi']

/-- Equal periodicities give the same `difference`. -/
theorem difference_congr (xs ys : List Value)
    (hp : xs.map Value.periodicity = ys.map Value.periodicity) :
    difference xs = difference ys := by
  funext j a b
  have hj : (xs[j]?).map Value.periodicity = (ys[j]?).map Value.periodicity := by
    rw [← List.getElem?_map, ← List.getElem?_map, hp]
  unfold difference
  cases hx : xs[j]? <;> cases hy : ys[j]? <;> simp_all [Value.difference]

/-- The published pair is a function of `at`, `kappa`, `slope`, the values and the
periodicities alone. -/
theorem published_congr (s₁ s₂ : BiasRestraint) (h : s₁.Sized)
    (hat : s₂.at_ = s₁.at_) (hk : s₂.kappa = s₁.kappa) (hm : s₂.slope = s₁.slope)
    (hv : s₂.values = s₁.values)
    (hp : s₂.arguments.map Value.periodicity = s₁.arguments.map Value.periodicity) :
    (calculate (difference s₂.arguments) s₂).map published
      = (calculate (difference s₁.arguments) s₁).map published := by
  have hn : s₂.getNumberOfArguments = s₁.getNumberOfArguments := by
    have := congrArg List.length hv
    simpa [values, getNumberOfArguments] using this
  have h' : s₂.Sized := by
    unfold Sized at *
    rw [hat, hk, hm, hn]
    exact h
  have hv' : s₂.arguments.map Value.value = s₁.arguments.map Value.value := hv
  rw [calculate_spec _ s₂ h', calculate_spec _ s₁ h, difference_congr _ _ hp]
  simp only [Option.map_some', published, hn, energy, force, cv, hat, hk, hm, hv']

/-- C10: `calculate` is stateless and deterministic in what it publishes. The published
`bias` and `force2` are the same for any two objects that agree on `at`, `kappa`, `slope`
and on the values and periodicities of the arguments, whatever their previously
published `bias`/`force2` and whatever their force accumulators hold; and calling
`calculate` twice in a row, with no reset of the accumulators in between, publishes what
one call publishes. -/
theorem calculate_stateless (s₁ s₂ : BiasRestraint) (h : s₁.Sized)
    (hat : s₂.at_ = s₁.at_) (hk : s₂.kappa = s₁.kappa) (hm : s₂.slope = s₁.slope)
    (hv : s₂.values = s₁.values)
    (hp : s₂.arguments.map Value.periodicity = s₁.arguments.map Value.periodicity) :
    ∃ out : ℚ × ℚ,
      (calculate (difference s₁.arguments) s₁).map published = some out ∧
      (calculate (difference s₂.arguments) s₂).map published = some out ∧
      ((calculate (difference s₁.arguments) s₁).bind
        (fun once => calculate (difference once.arguments) once)).map published = some out := by
  have h1 := calculate_spec (difference s₁.arguments) s₁ h
  refine ⟨_, by rw [h1]; rfl, ?_, ?_⟩
  · rw [published_congr s₁ s₂ h hat hk hm hv hp, h1]; rfl
  · rw [h1, Option.some_bind]
    have hfr := addForces_frame s₁.arguments (force (difference s₁.arguments) s₁)
    have h2 := published_congr s₁
      { s₁ with
        arguments := addForces s₁.arguments
          ((List.range s₁.getNumberOfArguments).map (force (difference s₁.arguments) s₁)),
        bias := ∑ i ∈ Finset.range s₁.getNumberOfArguments, energy (difference s₁.arguments) s₁ i,
        force2 := ∑ i ∈ Finset.range s₁.getNumberOfArguments,
          force (difference s₁.arguments) s₁ i ^ 2 }
      h rfl rfl rfl hfr.1 hfr.2
    rw [h2, h1]
    rfl

/-- C10 on the one-argument scenario: an object with other accumulator content and
other previously published outputs publishes the same pair, and so does a second call
in a row. -/
theorem calculate_stateless_witness :
    scenarioOne.Sized ∧
    ∃ out : ℚ × ℚ,
      (calculate (difference scenarioOne.arguments) scenarioOne).map published = some out ∧
      (calculate (difference scenarioOneUsed.arguments) scenarioOneUsed).map published
        = some out ∧
      ((calculate (difference scenarioOne.arguments) scenarioOne).bind
        (fun once => calculate (difference once.arguments) once)).map published = some out :=
  ⟨by decide, calculate_stateless scenarioOne scenarioOneUsed (by decide) rfl rfl rfl
    (by simp [values, scenarioOne, scenarioOneUsed])
    (by simp [scenarioOne, scenarioOneUsed])⟩

/-- The constructor in a build with the assertions compiled in, as a cascade of its
checks, in the order of the source. -/
theorem new_eq (ao : ActionOptions) :
    BiasRestraint.new false ao =
      if (parseVector ao.SLOPE (List.replicate ao.ARG.length 0.0)).length = ao.ARG.length then
        if (parseVector ao.KAPPA (List.replicate ao.ARG.length 0.0)).length = ao.ARG.length then
          if (parseVector ao.AT (List.replicate 0 0)).length = ao.ARG.length then
            if ao.unread.isEmpty = true then
              .ok { arguments := ao.ARG, at_ := parseVector ao.AT (List.replicate 0 0),
                    kappa := parseVector ao.KAPPA (List.replicate ao.ARG.length 0.0),
                    slope := parseVector ao.SLOPE (List.replicate ao.ARG.length 0.0),
                    bias := 0, force2 := 0 }
            else .error .plumed_error
          else .error (.assertion "at.size()==getNumberOfArguments()")
        else .error (.assertion "kappa.size()==getNumberOfArguments()")
      else .error (.assertion "slope.size()==getNumberOfArguments()") := by
  unfold BiasRestraint.new assert checkRead
  split_ifs <;> simp_all [bind, Except.bind, pure, Except.pure]

/-- The constructor in a build with `NDEBUG`: only `checkRead()` can stop it. -/
theorem new_NDEBUG_eq (ao : ActionOptions) :
    BiasRestraint.new true ao =
      if ao.unread.isEmpty = true then
        .ok { arguments := ao.ARG, at_ := parseVector ao.AT (List.replicate 0 0),
              kappa := parseVector ao.KAPPA (List.replicate ao.ARG.length 0.0),
              slope := parseVector ao.SLOPE (List.replicate ao.ARG.length 0.0),
              bias := 0, force2 := 0 }
      else .error .plumed_error := by
  unfold BiasRestraint.new assert checkRead
  split_ifs <;> simp_all [bind, Except.bind, pure, Except.pure]

/-- The constructor on a well-sized, fully read input line returns the parsed lists,
in every build. -/
theorem new_ok (NDEBUG : Bool) (ao : ActionOptions)
    (hs : (parseVector ao.SLOPE (List.replicate ao.ARG.length 0.0)).length = ao.ARG.length)
    (hk : (parseVector ao.KAPPA (List.replicate ao.ARG.length 0.0)).length = ao.ARG.length)
    (ha : (parseVector ao.AT (List.replicate 0 0)).length = ao.ARG.length)
    (hread : ao.unread.isEmpty = true) :
    BiasRestraint.new NDEBUG ao = .ok
      { arguments := ao.ARG, at_ := parseVector ao.AT (List.replicate 0 0),
        kappa := parseVector ao.KAPPA (List.replicate ao.ARG.length 0.0),
        slope := parseVector ao.SLOPE (List.replicate ao.ARG.length 0.0),
        bias := 0, force2 := 0 } := by
  cases NDEBUG
  · rw [new_eq, if_pos hs, if_pos hk, if_pos ha, if_pos hread]
  · rw [new_NDEBUG_eq, if_pos hread]

/-- C5, counterexample: in a build with `NDEBUG` the three `assert` expand to nothing,
and the constructor accepts the input line with a single `AT` value for two arguments:
it returns an object whose `at` has length one. -/
theorem new_unchecked_under_NDEBUG :
    (optionsShortAT.AT.getD []).length ≠ optionsShortAT.ARG.length ∧
    BiasRestraint.new true optionsShortAT = .ok
      { arguments := optionsShortAT.ARG, at_ := [1.0], kappa := [150.0, 150.0],
        slope := [0.0, 0.0], bias := 0, force2 := 0 } ∧
    ¬ (∀ (NDEBUG : Bool) (ao : ActionOptions), (ao.AT.getD []).length ≠ ao.ARG.length →
        ∃ e, BiasRestraint.new NDEBUG ao = .error e) := by
  have h1 : (optionsShortAT.AT.getD []).length ≠ optionsShortAT.ARG.length := by decide
  have h2 : BiasRestraint.new true optionsShortAT = .ok
      { arguments := optionsShortAT.ARG, at_ := [1.0], kappa := [150.0, 150.0],
        slope := [0.0, 0.0], bias := 0, force2 := 0 } := rfl
  refine ⟨h1, h2, fun hall => ?_⟩
  obtain ⟨e, he⟩ := hall true optionsShortAT h1
  rw [h2] at he
  cases he

/-- C5 as amended: in a build that compiles the assertions (`NDEBUG` not defined) the
constructor checks the three sizes. With `n` the number of arguments: it stops at a
failed assertion, returning no object, whenever the number of `AT` values (none when
`AT` is absent) differs from `n`, whenever `KAPPA` is given with a number of values other
than `n`, and whenever `SLOPE` is given with a number of values other than `n`; and
every object it returns has `at`, `kappa` and `slope` of length `n`, over the `n`
arguments of `ARG`. -/
theorem new_checks_sizes (NDEBUG : Bool) (hbuild : NDEBUG = false) (ao : ActionOptions) :
    ((ao.AT.getD []).length ≠ ao.ARG.length →
      ∃ c, BiasRestraint.new NDEBUG ao = .error (.assertion c)) ∧
    (∀ ks, ao.KAPPA = some ks → ks.length ≠ ao.ARG.length →
      ∃ c, BiasRestraint.new NDEBUG ao = .error (.assertion c)) ∧
    (∀ ms, ao.SLOPE = some ms → ms.length ≠ ao.ARG.length →
      ∃ c, BiasRestraint.new NDEBUG ao = .error (.assertion c)) ∧
    (∀ b, BiasRestraint.new NDEBUG ao = .ok b →
      b.getNumberOfArguments = ao.ARG.length ∧ b.at_.length = ao.ARG.length ∧
      b.kappa.length = ao.ARG.length ∧ b.slope.length = ao.ARG.length) := by
  subst hbuild
  have hnew := new_eq ao
  by_cases hs : (parseVector ao.SLOPE (List.replicate ao.ARG.length 0.0)).length = ao.ARG.length
  · by_cases hk : (parseVector ao.KAPPA (List.replicate ao.ARG.length 0.0)).length
        = ao.ARG.length
    · by_cases ha : (parseVector ao.AT (List.replicate 0 0)).length = ao.ARG.length
      · rw [if_pos hs, if_pos hk, if_pos ha] at hnew
        refine ⟨?_, ?_, ?_, ?_⟩
        · intro hne
          exfalso; apply hne
          cases hAT : ao.AT <;> simp_all [parseVector]
        · intro ks hks hne
          exfalso; apply hne
          simpa [parseVector, hks] using hk
        · intro ms hms hne
          exfalso; apply hne
          simpa [parseVector, hms] using hs
        · intro b hb
          rw [hnew] at hb
          by_cases hu : ao.unread.isEmpty = true
          · rw [if_pos hu] at hb
            cases hb
            exact ⟨rfl, ha, hk, hs⟩
          · rw [if_neg hu] at hb
            cases hb
      · rw [if_pos hs, if_pos hk, if_neg ha] at hnew
        exact ⟨fun _ => ⟨_, hnew⟩, fun _ _ _ => ⟨_, hnew⟩, fun _ _ _ => ⟨_, hnew⟩,
          fun b hb => by rw [hnew] at hb; cases hb⟩
    · rw [if_pos hs, if_neg hk] at hnew
      exact ⟨fun _ => ⟨_, hnew⟩, fun _ _ _ => ⟨_, hnew⟩, fun _ _ _ => ⟨_, hnew⟩,
        fun b hb => by rw [hnew] at hb; cases hb⟩
  · rw [if_neg hs] at hnew
    exact ⟨fun _ => ⟨_, hnew⟩, fun _ _ _ => ⟨_, hnew⟩, fun _ _ _ => ⟨_, hnew⟩,
      fun b hb => by rw [hnew] at hb; cases hb⟩

/-- C5 as amended, on concrete input lines in a build with the assertions: one `AT`
value, three `KAPPA` values or an empty `SLOPE` list for two arguments stop the
constructor; the well-sized line is accepted and yields lists of length two. -/
theorem new_checks_sizes_witness :
    ((optionsShortAT.AT.getD []).length ≠ optionsShortAT.ARG.length ∧
      ∃ c, BiasRestraint.new false optionsShortAT = .error (.assertion c)) ∧
    (optionsLongKAPPA.KAPPA = some [150.0, 150.0, 150.0] ∧
      ([150.0, 150.0, 150.0] : List ℚ).length ≠ optionsLongKAPPA.ARG.length ∧
      ∃ c, BiasRestraint.new false optionsLongKAPPA = .error (.assertion c)) ∧
    (optionsEmptySLOPE.SLOPE = some [] ∧
      ([] : List ℚ).length ≠ optionsEmptySLOPE.ARG.length ∧
      ∃ c, BiasRestraint.new false optionsEmptySLOPE = .error (.assertion c)) ∧
    (BiasRestraint.new false optionsGood = .ok
        { arguments := optionsGood.ARG, at_ := [1.0, 1.5], kappa := [150.0, 150.0],
          slope := [0.0, 0.0], bias := 0, force2 := 0 } ∧
      ([1.0, 1.5] : List ℚ).length = optionsGood.ARG.length) :=
  ⟨⟨by decide, (new_checks_sizes false rfl optionsShortAT).1 (by decide)⟩,
   ⟨rfl, by decide, (new_checks_sizes false rfl optionsLongKAPPA).2.1 _ rfl (by decide)⟩,
   ⟨rfl, by decide, (new_checks_sizes false rfl optionsEmptySLOPE).2.2.1 _ rfl (by decide)⟩,
   ⟨rfl, ((new_checks_sizes false rfl optionsGood).2.2.2 _ rfl).2.1⟩⟩

/-- The accumulators after `calculate`: former content plus force, entry by entry. -/
theorem calculate_inputForces (difference : Nat → ℚ → ℚ → ℚ) (self : BiasRestraint)
    (h : self.Sized) :
    (calculate difference self).map inputForces = some
      ((List.range self.getNumberOfArguments).map (fun i =>
        self.inputForces.getD i 0 + force difference self i)) := by
  rw [calculate_spec difference self h]
  simp only [Option.map_some', inputForces, getNumberOfArguments]
  rw [map_inputForce_addForces]

/-- The force formula reads `at`, `kappa`, `slope` and the values, nothing else. -/
theorem force_congr (difference : Nat → ℚ → ℚ → ℚ) (s₁ s₂ : BiasRestraint)
    (hat : s₂.at_ = s₁.at_) (hk : s₂.kappa = s₁.kappa) (hm : s₂.slope = s₁.slope)
    (hv : s₂.arguments.map Value.value = s₁.arguments.map Value.value) (i : Nat) :
    force difference s₂ i = force difference s₁ i := by
  simp only [force, cv, hat, hk, hm, hv]

/-- C11: the force that `calculate` writes for argument `i` is added to the accumulator
of argument `i`: whatever the accumulator held before, it holds that plus the force
afterwards; and when a second restraint runs on the same arguments in the same step,
the accumulator holds the former content plus the sum of the two forces. -/
theorem forces_accumulate (difference : Nat → ℚ → ℚ → ℚ) (first second : BiasRestraint)
    (h1 : first.Sized) (h2 : second.Sized) (hshare : second.arguments = first.arguments) :
    (calculate difference first).map inputForces = some
      ((List.range first.getNumberOfArguments).map (fun i =>
        first.inputForces.getD i 0
          + -(first.kappa.getD i 0 * cv difference first i + first.slope.getD i 0))) ∧
    ((calculate difference first).bind
        (fun after => calculate difference (second.onArguments after.arguments))).map inputForces
      = some ((List.range first.getNumberOfArguments).map (fun i =>
        first.inputForces.getD i 0
          + (-(first.kappa.getD i 0 * cv difference first i + first.slope.getD i 0)
            + -(second.kappa.getD i 0 * cv difference second i + second.slope.getD i 0)))) := by
  refine ⟨calculate_inputForces difference first h1, ?_⟩
  have hfr := addForces_frame first.arguments (force difference first)
  have hlen : (addForces first.arguments
      ((List.range first.getNumberOfArguments).map (force difference first))).length
      = first.getNumberOfArguments := by
    have := congrArg List.length hfr.1
    simpa [getNumberOfArguments] using this
  have hs' : (second.onArguments (addForces first.arguments
      ((List.range first.getNumberOfArguments).map (force difference first)))).Sized := by
    unfold Sized getNumberOfArguments onArguments at *
    simp only [hlen]
    rw [← hshare]
    exact h2
  rw [calculate_spec difference first h1, Option.some_bind,
    calculate_inputForces difference _ hs']
  have hn : (second.onArguments (addForces first.arguments
      ((List.range first.getNumberOfArguments).map (force difference first)))).getNumberOfArguments
      = first.getNumberOfArguments := hlen
  rw [hn]
  congr 1
  apply List.map_congr_left
  intro i hi
  have hi' : i < first.arguments.length := by simpa [getNumberOfArguments] using hi
  have hforce := force_congr difference second
    (second.onArguments (addForces first.arguments
      ((List.range first.getNumberOfArguments).map (force difference first))))
    rfl rfl rfl (by rw [hshare]; exact hfr.1) i
  rw [hforce]
  simp only [inputForces, onArguments, getNumberOfArguments, map_inputForce_addForces]
  simp [List.getD_eq_getElem?_getD, List.getElem?_range hi', List.getElem?_eq_getElem hi',
    force, add_assoc]

/-- C11 on one argument with value `3` whose accumulator holds `7`: the first restraint
writes `-11` and leaves `-4`; the second restraint writes `-6` on top and leaves `-10`,
the former content plus the sum of the two forces. -/
theorem forces_accumulate_witness :
    scenarioOneUsed.Sized ∧ (scenarioOther.onArguments scenarioOneUsed.arguments).Sized ∧
    (scenarioOther.onArguments scenarioOneUsed.arguments).arguments = scenarioOneUsed.arguments ∧
    (calculate (difference scenarioOneUsed.arguments) scenarioOneUsed).map inputForces
      = some [7 + -11] ∧
    ((calculate (difference scenarioOneUsed.arguments) scenarioOneUsed).bind
        (fun after => calculate (difference scenarioOneUsed.arguments)
          ((scenarioOther.onArguments scenarioOneUsed.arguments).onArguments
            after.arguments))).map inputForces
      = some [7 + (-11 + -6)] := by
  have h := forces_accumulate (difference scenarioOneUsed.arguments) scenarioOneUsed
    (scenarioOther.onArguments scenarioOneUsed.arguments) (by decide) (by decide) rfl
  refine ⟨by decide, by decide, rfl, ?_, ?_⟩
  · rw [h.1]
    norm_num [scenarioOneUsed, getNumberOfArguments, inputForces, cv, difference,
      Value.difference, List.range, List.range.loop]
  · rw [h.2]
    norm_num [scenarioOneUsed, scenarioOther, onArguments, getNumberOfArguments, inputForces,
      cv, difference, Value.difference, List.range, List.range.loop]

/-- Reading a list entry by entry gives the list back. -/
theorem range_map_getD (l : List ℚ) :
    (List.range l.length).map (fun i => l.getD i 0) = l := by
  apply List.ext_getElem?
  intro i
  by_cases hi : i < l.length
  · simp [List.getElem?_range hi, List.getElem?_eq_getElem hi, List.getD_eq_getElem?_getD]
  · have hi' : l.length ≤ i := Nat.le_of_not_lt hi
    have hr : (List.range l.length)[i]? = none := List.getElem?_eq_none (by simpa using hi')
    simp [List.getElem?_eq_none hi', hr]

/-- Every entry of the all-zero list reads as zero. -/
theorem getD_replicate_zero (n i : Nat) : (List.replicate n (0 : ℚ)).getD i 0 = 0 := by
  by_cases hi : i < n
  · simp [List.getD_eq_getElem?_getD, List.getElem?_replicate, hi]
  · simp [List.getD_eq_getElem?_getD, List.getElem?_replicate, hi]

/-- C12: `KAPPA` and `SLOPE` default to zero. When the input gives `AT` with one value
per argument, leaves `SLOPE` out and has nothing unread, the constructor returns an
object, in every build (with or without `NDEBUG`). If `KAPPA` is left out too, `kappa` and `slope` are the all-zero lists of length
`n`, and then, whatever the values of the arguments, `calculate` publishes `bias = 0`
and `force2 = 0` and leaves every accumulator as it was (it writes the force `0`). If
`KAPPA` is given with `n` values, `slope` is all-zero and the restraint is purely
harmonic: the force written is `-kappa[i]*cv[i]` and `bias` is the sum of
`0.5*kappa[i]*cv[i]^2`. -/
theorem defaults_are_zero (NDEBUG : Bool) (ao : ActionOptions) (centres : List ℚ)
    (hAT : ao.AT = some centres) (hlen : centres.length = ao.ARG.length)
    (hS : ao.SLOPE = none) (hread : ao.unread = []) :
    (ao.KAPPA = none →
      ∃ b, BiasRestraint.new NDEBUG ao = .ok b ∧ b.arguments = ao.ARG ∧ b.at_ = centres ∧
        b.kappa = List.replicate ao.ARG.length 0 ∧ b.slope = List.replicate ao.ARG.length 0 ∧
        ∀ (difference : Nat → ℚ → ℚ → ℚ) (s : BiasRestraint),
          s.at_ = b.at_ → s.kappa = b.kappa → s.slope = b.slope →
          s.arguments.length = ao.ARG.length →
          (calculate difference s).map published = some (0, 0) ∧
          (calculate difference s).map inputForces = some s.inputForces) ∧
    (∀ ks, ao.KAPPA = some ks → ks.length = ao.ARG.length →
      ∃ b, BiasRestraint.new NDEBUG ao = .ok b ∧ b.arguments = ao.ARG ∧ b.at_ = centres ∧
        b.kappa = ks ∧ b.slope = List.replicate ao.ARG.length 0 ∧
        ∀ (difference : Nat → ℚ → ℚ → ℚ) (s : BiasRestraint),
          s.at_ = b.at_ → s.kappa = b.kappa → s.slope = b.slope →
          s.arguments.length = ao.ARG.length →
          (calculate difference s).map bias = some
            (∑ i ∈ Finset.range s.getNumberOfArguments,
              0.5 * s.kappa.getD i 0 * cv difference s i ^ 2) ∧
          (calculate difference s).map inputForces = some
            ((List.range s.getNumberOfArguments).map (fun i =>
              s.inputForces.getD i 0 + -(s.kappa.getD i 0 * cv difference s i)))) := by
  have hzero : (List.replicate ao.ARG.length (0.0 : ℚ)) = List.replicate ao.ARG.length 0 := by
    norm_num
  refine ⟨fun hK => ?_, fun ks hK hks => ?_⟩
  · refine ⟨{ arguments := ao.ARG, at_ := centres, kappa := List.replicate ao.ARG.length 0,
               slope := List.replicate ao.ARG.length 0, bias := 0, force2 := 0 },
      ?_, rfl, rfl, rfl, rfl, ?_⟩
    · rw [new_ok NDEBUG ao (by simp [hS, parseVector]) (by simp [hK, parseVector])
        (by simp [hAT, parseVector, hlen]) (by simp [hread]), hzero]
      simp [hAT, hS, hK, parseVector]
    · intro difference s hat hk hm hn
      have hs : s.Sized := by
        unfold Sized getNumberOfArguments
        rw [hat, hk, hm, hn]
        simp [hlen]
      have hforce : ∀ i, force difference s i = 0 := by
        intro i
        simp [force, hk, hm, getD_replicate_zero]
      have henergy : ∀ i, energy difference s i = 0 := by
        intro i
        simp [energy, hk, hm, getD_replicate_zero]
      constructor
      · rw [calculate_spec difference s hs]
        simp [published, hforce, henergy]
      · rw [calculate_inputForces difference s hs]
        simp only [hforce, add_zero, getNumberOfArguments]
        have := range_map_getD s.inputForces
        simp only [inputForces, List.length_map] at this ⊢
        rw [this]
  · refine ⟨{ arguments := ao.ARG, at_ := centres, kappa := ks,
               slope := List.replicate ao.ARG.length 0, bias := 0, force2 := 0 },
      ?_, rfl, rfl, rfl, rfl, ?_⟩
    · rw [new_ok NDEBUG ao (by simp [hS, parseVector]) (by simp [hK, parseVector, hks])
        (by simp [hAT, parseVector, hlen]) (by simp [hread]), hzero]
      simp [hAT, hS, hK, parseVector]
    · intro difference s hat hk hm hn
      have hs : s.Sized := by
        unfold Sized getNumberOfArguments
        rw [hat, hk, hm, hn]
        simp [hlen, hks]
      have hslope : ∀ i, s.slope.getD i 0 = 0 := by
        intro i
        rw [hm]
        exact getD_replicate_zero _ _
      constructor
      · rw [calculate_spec difference s hs]
        simp only [Option.map_some', energy, hslope, zero_mul, add_zero]
      · rw [calculate_inputForces difference s hs]
        simp only [force, hslope, add_zero]

/-- C12 on two input lines over two arguments: with only `AT` given the object has
`kappa = slope = [0, 0]`, publishes `(0, 0)` and leaves the accumulators as they were;
with `AT` and `KAPPA` given the object has `slope = [0, 0]` and its `bias` is the
harmonic sum; the first in a build with the assertions, the second with `NDEBUG`. -/
theorem defaults_are_zero_witness :
    (optionsOnlyAT.AT = some [1.0, 1.5] ∧
      ([1.0, 1.5] : List ℚ).length = optionsOnlyAT.ARG.length ∧
      optionsOnlyAT.SLOPE = none ∧ optionsOnlyAT.unread = [] ∧ optionsOnlyAT.KAPPA = none ∧
      ∃ b, BiasRestraint.new false optionsOnlyAT = .ok b ∧ b.kappa = [0, 0] ∧ b.slope = [0, 0] ∧
        (calculate (difference b.arguments) b).map published = some (0, 0) ∧
        (calculate (difference b.arguments) b).map inputForces = some b.inputForces) ∧
    (optionsGood.AT = some [1.0, 1.5] ∧
      ([1.0, 1.5] : List ℚ).length = optionsGood.ARG.length ∧
      optionsGood.SLOPE = none ∧ optionsGood.unread = [] ∧
      optionsGood.KAPPA = some [150.0, 150.0] ∧
      ([150.0, 150.0] : List ℚ).length = optionsGood.ARG.length ∧
      ∃ b, BiasRestraint.new true optionsGood = .ok b ∧ b.kappa = [150.0, 150.0] ∧
        b.slope = [0, 0] ∧
        (calculate (difference b.arguments) b).map bias = some
          (∑ i ∈ Finset.range b.getNumberOfArguments,
            0.5 * b.kappa.getD i 0 * cv (difference b.arguments) b i ^ 2)) := by
  constructor
  · obtain ⟨b, hb, harg, -, hk, hm, hall⟩ :=
      (defaults_are_zero false optionsOnlyAT [1.0, 1.5] rfl rfl rfl rfl).1 rfl
    have hcalc := hall (difference b.arguments) b rfl rfl rfl (by rw [harg])
    exact ⟨rfl, rfl, rfl, rfl, rfl, b, hb, hk, hm, hcalc.1, hcalc.2⟩
  · obtain ⟨b, hb, harg, -, hk, hm, hall⟩ :=
      (defaults_are_zero true optionsGood [1.0, 1.5] rfl rfl rfl rfl).2 [150.0, 150.0] rfl rfl
    have hcalc := hall (difference b.arguments) b rfl rfl rfl (by rw [harg])
    exact ⟨rfl, rfl, rfl, rfl, rfl, rfl, b, hb, hk, hm, hcalc.1⟩

/-- Folding a delta with a positive width `W` lands in `(-W/2, W/2]`. -/
theorem fold_range (W δ : ℚ) (hW : 0 < W) :
    -W / 2 < δ - W * ⌈δ / W - 1 / 2⌉ ∧ δ - W * ⌈δ / W - 1 / 2⌉ ≤ W / 2 := by
  have h1 := Int.ceil_lt_add_one (δ / W - 1 / 2)
  have h2 := Int.le_ceil (δ / W - 1 / 2)
  have e : δ = W * (δ / W) := by field_simp
  constructor
  · have := mul_lt_mul_of_pos_left h1 hW
    nlinarith
  · have := mul_le_mul_of_nonneg_left h2 hW.le
    nlinarith

/-- C15: for a periodic argument `i` with domain width `W = max - min > 0` and all
scalars `a`, `b`, the displacement `difference(i, a, b)` lies in `(-W/2, W/2]` and
differs from `b - a` by an integer multiple of `W`; in particular the displacement
`cv[i]` that the restraint uses lies in that interval. -/
theorem difference_periodic (self : BiasRestraint) (i : Nat) (v : Value) (lo hi : ℚ)
    (hv : self.arguments[i]? = some v) (hper : v.periodicity = Periodicity.periodic lo hi)
    (hW : 0 < hi - lo) :
    (∀ a b : ℚ,
      -(hi - lo) / 2 < PLMD.difference self.arguments i a b ∧
      PLMD.difference self.arguments i a b ≤ (hi - lo) / 2 ∧
      ∃ k : ℤ, PLMD.difference self.arguments i a b - (b - a) = k * (hi - lo)) ∧
    (-(hi - lo) / 2 < cv (PLMD.difference self.arguments) self i ∧
      cv (PLMD.difference self.arguments) self i ≤ (hi - lo) / 2) := by
  have hd : ∀ a b : ℚ, PLMD.difference self.arguments i a b
      = (b - a) - (hi - lo) * ⌈(b - a) / (hi - lo) - 1 / 2⌉ := by
    intro a b
    simp [PLMD.difference, hv, Value.difference, hper]
  have hall : ∀ a b : ℚ,
      -(hi - lo) / 2 < PLMD.difference self.arguments i a b ∧
      PLMD.difference self.arguments i a b ≤ (hi - lo) / 2 ∧
      ∃ k : ℤ, PLMD.difference self.arguments i a b - (b - a) = k * (hi - lo) := by
    intro a b
    rw [hd a b]
    obtain ⟨h1, h2⟩ := fold_range (hi - lo) (b - a) hW
    refine ⟨h1, h2, -⌈(b - a) / (hi - lo) - 1 / 2⌉, ?_⟩
    push_cast
    ring
  exact ⟨hall, (hall _ _).1, (hall _ _).2.1⟩

/-- C15 on the periodic scenario (domain width `2`): from the centre `-0.9` to the value
`0.9` the displacement is `-0.2`, not `1.8`; it lies in `(-1, 1]` and is `1.8 - 2`. -/
theorem difference_periodic_witness :
    scenarioPeriodic.arguments[0]? = some
      { value := 0.9, periodicity := .periodic (-1) 1, inputForce := 0 } ∧
    (0 : ℚ) < 1 - (-1) ∧
    (-(1 - (-1)) / 2 < PLMD.difference scenarioPeriodic.arguments 0 (-0.9) 0.9 ∧
      PLMD.difference scenarioPeriodic.arguments 0 (-0.9) 0.9 ≤ (1 - (-1)) / 2 ∧
      ∃ k : ℤ, PLMD.difference scenarioPeriodic.arguments 0 (-0.9) 0.9 - (0.9 - (-0.9))
        = k * (1 - (-1))) ∧
    PLMD.difference scenarioPeriodic.arguments 0 (-0.9) 0.9 = -0.2 := by
  refine ⟨rfl, by norm_num, (difference_periodic scenarioPeriodic 0 _ (-1) 1 rfl rfl
    (by norm_num)).1 (-0.9) 0.9, ?_⟩
  have hc : ⌈((0.9 : ℚ) - (-0.9)) / (1 - (-1)) - 1 / 2⌉ = 1 := by
    rw [Int.ceil_eq_iff]; norm_num
  simp only [PLMD.difference, scenarioPeriodic, List.getElem?_cons_zero, Value.difference, hc]
  norm_num

/-- C16: for a non-periodic argument `i` and all scalars `a`, `b`,
`difference(i, a, b) = b - a`; hence the displacement of the restraint is
`cv[i] = value[i] - at[i]`, current value minus centre, and the force that `calculate`
writes for the argument is `-(kappa[i]*(value[i] - at[i]) + slope[i])`. -/
theorem difference_notperiodic (self : BiasRestraint) (i : Nat) (v : Value)
    (hv : self.arguments[i]? = some v) (hnp : v.periodicity = Periodicity.notperiodic) :
    (∀ a b : ℚ, PLMD.difference self.arguments i a b = b - a) ∧
    cv (PLMD.difference self.arguments) self i = v.value - self.at_.getD i 0 ∧
    (self.Sized →
      (calculate (PLMD.difference self.arguments) self).map
          (fun after => after.inputForces.getD i 0 - self.inputForces.getD i 0)
        = some (-(self.kappa.getD i 0 * (v.value - self.at_.getD i 0)
            + self.slope.getD i 0))) := by
  have hd : ∀ a b : ℚ, PLMD.difference self.arguments i a b = b - a := by
    intro a b
    simp [PLMD.difference, hv, Value.difference, hnp]
  have hcv : cv (PLMD.difference self.arguments) self i = v.value - self.at_.getD i 0 := by
    unfold cv
    rw [hd]
    simp [List.getD_eq_getElem?_getD, hv]
  refine ⟨hd, hcv, fun hs => ?_⟩
  obtain ⟨hi, -⟩ := List.getElem?_eq_some.mp hv
  rw [calculate_spec _ self hs]
  simp only [Option.map_some', inputForces, getNumberOfArguments, map_inputForce_addForces]
  simp [List.getD_eq_getElem?_getD, List.getElem?_range hi, List.getElem?_eq_getElem hi, force,
    hcv]

/-- C16 on the one-argument scenario: the displacement is `3 - 2 = 1` and the force
written is `-(10*1 + 1) = -11`. -/
theorem difference_notperiodic_witness :
    scenarioOne.arguments[0]? = some
      { value := 3.0, periodicity := .notperiodic, inputForce := 0 } ∧
    scenarioOne.Sized ∧
    PLMD.difference scenarioOne.arguments 0 2 3 = 3 - 2 ∧
    cv (PLMD.difference scenarioOne.arguments) scenarioOne 0 = 3.0 - scenarioOne.at_.getD 0 0 ∧
    (calculate (PLMD.difference scenarioOne.arguments) scenarioOne).map
        (fun after => after.inputForces.getD 0 0 - scenarioOne.inputForces.getD 0 0)
      = some (-(scenarioOne.kappa.getD 0 0 * (3.0 - scenarioOne.at_.getD 0 0)
          + scenarioOne.slope.getD 0 0)) :=
  have h := difference_notperiodic scenarioOne 0 _ rfl rfl
  ⟨rfl, by decide, h.1 2 3, h.2.1, h.2.2 (by decide)⟩

/-- C18: under the construction invariant every index `i` that the loop of `calculate`
visits (the indices `0 .. n-1` of `List.range n`, and no other) is in range for `at`,
`kappa`, `slope` and the arguments; the loop has a state after every number of
iterations, and `calculate` returns an object: the out-of-range branch is never taken.
With no argument the loop visits no index and `calculate` publishes `bias = 0` and
`force2 = 0`. -/
theorem accesses_in_bounds (difference : Nat → ℚ → ℚ → ℚ) (self : BiasRestraint)
    (h : self.Sized) :
    (∀ i, i ∈ List.range self.getNumberOfArguments ↔ i < self.getNumberOfArguments) ∧
    (∀ i ∈ List.range self.getNumberOfArguments,
      i < self.at_.length ∧ i < self.kappa.length ∧ i < self.slope.length ∧
      i < self.arguments.length) ∧
    (∀ j ≤ self.getNumberOfArguments,
      ((List.range j).foldlM (calculateBody difference)
        { self := self, ene := 0.0, totf2 := 0.0 }).isSome = true) ∧
    (calculate difference self).isSome = true ∧
    (self.getNumberOfArguments = 0 →
      List.range self.getNumberOfArguments = [] ∧
      calculate difference self = some { self with bias := 0, force2 := 0 }) := by
  refine ⟨fun i => List.mem_range, fun i hi => ?_, fun j hj => ?_, ?_, fun h0 => ?_⟩
  · have hi' : i < self.getNumberOfArguments := List.mem_range.mp hi
    obtain ⟨h1, h2, h3⟩ := h
    rw [h1, h2, h3]
    exact ⟨hi', hi', hi', hi'⟩
  · obtain ⟨st, hfold, -⟩ := loop_spec difference self h j hj
    rw [hfold]
    rfl
  · rw [calculate_spec difference self h]
    rfl
  · refine ⟨by rw [h0]; rfl, ?_⟩
    rw [calculate_spec difference self h, h0]
    have hnil : self.arguments = [] := List.length_eq_zero.mp h0
    simp [addForces, hnil]

/-- C18 on concrete objects: the well-sized scenario returns an object, the restraint
over no argument publishes `(0, 0)`, and an object without its `KAPPA` entry, which the
constructor never returns, does take the out-of-range branch. -/
theorem accesses_in_bounds_witness :
    scenarioOne.Sized ∧
    (calculate (difference scenarioOne.arguments) scenarioOne).isSome = true ∧
    scenarioNone.Sized ∧ scenarioNone.getNumberOfArguments = 0 ∧
    calculate (difference scenarioNone.arguments) scenarioNone
      = some { scenarioNone with bias := 0, force2 := 0 } ∧
    ¬ scenarioMissized.Sized ∧
    calculate (difference scenarioMissized.arguments) scenarioMissized = none :=
  ⟨by decide,
   (accesses_in_bounds (difference scenarioOne.arguments) scenarioOne (by decide)).2.2.2.1,
   by decide, rfl,
   ((accesses_in_bounds (difference scenarioNone.arguments) scenarioNone
      (by decide)).2.2.2.2 rfl).2,
   by decide, rfl⟩

/-- C19: at the centre of the restraint the harmonic part vanishes. If every
displacement `cv[i]` is `0`, then `calculate` publishes `bias = 0`, writes for every
argument the force `-slope[i]` whatever `kappa` is, and publishes
`force2 = sum_i slope[i]^2`; and it leaves all accumulators as they were (the centre is
force-free) exactly when every `slope[i]` is `0`. -/
theorem centre_is_linear (difference : Nat → ℚ → ℚ → ℚ) (self : BiasRestraint)
    (h : self.Sized) (hc : ∀ i < self.getNumberOfArguments, cv difference self i = 0) :
    (calculate difference self).map bias = some 0 ∧
    (calculate difference self).map inputForces = some
      ((List.range self.getNumberOfArguments).map (fun i =>
        self.inputForces.getD i 0 + -self.slope.getD i 0)) ∧
    (calculate difference self).map force2 = some
      (∑ i ∈ Finset.range self.getNumberOfArguments, self.slope.getD i 0 ^ 2) ∧
    ((calculate difference self).map inputForces = some self.inputForces ↔
      ∀ i < self.getNumberOfArguments, self.slope.getD i 0 = 0) := by
  have hforce : ∀ i ∈ List.range self.getNumberOfArguments,
      force difference self i = -self.slope.getD i 0 := by
    intro i hi
    simp [force, hc i (List.mem_range.mp hi)]
  have hF : (calculate difference self).map inputForces = some
      ((List.range self.getNumberOfArguments).map (fun i =>
        self.inputForces.getD i 0 + -self.slope.getD i 0)) := by
    rw [calculate_inputForces difference self h]
    congr 1
    apply List.map_congr_left
    intro i hi
    rw [hforce i hi]
  refine ⟨?_, hF, ?_, ?_⟩
  · rw [calculate_spec difference self h]
    simp only [Option.map_some', Option.some.injEq]
    apply Finset.sum_eq_zero
    intro i hi
    simp [energy, hc i (Finset.mem_range.mp hi)]
  · rw [calculate_spec difference self h]
    simp only [Option.map_some', Option.some.injEq]
    apply Finset.sum_congr rfl
    intro i hi
    rw [hforce i (List.mem_range.mpr (Finset.mem_range.mp hi))]
    ring
  · rw [hF, Option.some.injEq]
    have hlen : self.inputForces.length = self.getNumberOfArguments := by
      simp [inputForces, getNumberOfArguments]
    constructor
    · intro heq i hi
      have hi' : i < self.inputForces.length := by rw [hlen]; exact hi
      have := congrArg (fun l => l[i]?) heq
      simp only [List.getElem?_map, List.getElem?_range hi, Option.map_some',
        List.getElem?_eq_getElem hi', List.getD_eq_getElem?_getD, Option.getD_some,
        Option.some.injEq] at this
      simp only [List.getD_eq_getElem?_getD]
      linarith
    · intro hz
      have hmap : (List.range self.getNumberOfArguments).map (fun i =>
          self.inputForces.getD i 0 + -self.slope.getD i 0)
          = (List.range self.inputForces.length).map (fun i => self.inputForces.getD i 0) := by
        rw [hlen]
        apply List.map_congr_left
        intro i hi
        rw [hz i (List.mem_range.mp hi)]
        ring
      rw [hmap, range_map_getD]

/-- C19 on an argument at its centre (`value = AT = 2`, `KAPPA = 10`, `SLOPE = 1`): the
published pair is `(0, 1)` and the force written is `-1`. -/
theorem centre_is_linear_witness :
    scenarioCentre.Sized ∧
    (∀ i < scenarioCentre.getNumberOfArguments,
      cv (difference scenarioCentre.arguments) scenarioCentre i = 0) ∧
    (calculate (difference scenarioCentre.arguments) scenarioCentre).map bias = some 0 ∧
    (calculate (difference scenarioCentre.arguments) scenarioCentre).map inputForces
      = some [-1] ∧
    (calculate (difference scenarioCentre.arguments) scenarioCentre).map force2 = some 1 := by
  have hc : ∀ i < scenarioCentre.getNumberOfArguments,
      cv (difference scenarioCentre.arguments) scenarioCentre i = 0 := by
    intro i hi
    have hi0 : i = 0 := by
      have : i < 1 := hi
      omega
    subst hi0
    norm_num [scenarioCentre, cv, difference, Value.difference]
  have h := centre_is_linear (difference scenarioCentre.arguments) scenarioCentre
    (by decide) hc
  refine ⟨by decide, hc, h.1, ?_, ?_⟩
  · rw [h.2.1]
    norm_num [scenarioCentre, getNumberOfArguments, inputForces, List.range, List.range.loop]
  · rw [h.2.2.1]
    norm_num [scenarioCentre, getNumberOfArguments]

/-- The single-argument restraint of an argument in range: sizes and formulas. -/
theorem single_spec (difference : Nat → ℚ → ℚ → ℚ) (self : BiasRestraint) (h : self.Sized)
    (i : Nat) (hi : i < self.getNumberOfArguments) :
    (self.single i).Sized ∧ (self.single i).getNumberOfArguments = 1 ∧
    energy (fun _ a b => difference i a b) (self.single i) 0 = energy difference self i ∧
    force (fun _ a b => difference i a b) (self.single i) 0 = force difference self i ∧
    (self.single i).inputForces.getD 0 0 = self.inputForces.getD i 0 := by
  obtain ⟨h1, h2, h3⟩ := h
  have hv : i < self.arguments.length := hi
  have ha : i < self.at_.length := by rw [h1]; exact hi
  have hk : i < self.kappa.length := by rw [h2]; exact hi
  have hm : i < self.slope.length := by rw [h3]; exact hi
  refine ⟨?_, ?_, ?_, ?_, ?_⟩
  · simp [Sized, single, getNumberOfArguments, List.getElem?_eq_getElem, hv, ha, hk, hm]
  · simp [single, getNumberOfArguments, List.getElem?_eq_getElem hv]
  · simp [energy, cv, single, List.getD_eq_getElem?_getD, List.getElem?_eq_getElem, hv, ha, hk,
      hm]
  · simp [force, cv, single, List.getD_eq_getElem?_getD, List.getElem?_eq_getElem, hv, ha, hk,
      hm]
  · simp [inputForces, single, List.getD_eq_getElem?_getD, List.getElem?_eq_getElem hv]

/-- The `difference` of the single-argument restraint is that of the argument. -/
theorem difference_single (self : BiasRestraint) (i : Nat)
    (hi : i < self.getNumberOfArguments) :
    PLMD.difference (self.single i).arguments 0 = PLMD.difference self.arguments i := by
  have hv : i < self.arguments.length := hi
  funext a b
  simp [PLMD.difference, single, List.getElem?_eq_getElem hv]

/-- `calculate` uses `difference` at the indices of its arguments only. -/
theorem calculate_congr (d₁ d₂ : Nat → ℚ → ℚ → ℚ) (self : BiasRestraint) (h : self.Sized)
    (hd : ∀ i < self.getNumberOfArguments, d₁ i = d₂ i) :
    calculate d₁ self = calculate d₂ self := by
  have hf : ∀ i ∈ List.range self.getNumberOfArguments, force d₁ self i = force d₂ self i := by
    intro i hi
    simp [force, cv, hd i (List.mem_range.mp hi)]
  have he : ∀ i ∈ Finset.range self.getNumberOfArguments,
      energy d₁ self i = energy d₂ self i := by
    intro i hi
    simp [energy, cv, hd i (Finset.mem_range.mp hi)]
  have e1 : (List.range self.getNumberOfArguments).map (force d₁ self)
      = (List.range self.getNumberOfArguments).map (force d₂ self) := List.map_congr_left hf
  have e2 : ∑ i ∈ Finset.range self.getNumberOfArguments, energy d₁ self i
      = ∑ i ∈ Finset.range self.getNumberOfArguments, energy d₂ self i :=
    Finset.sum_congr rfl he
  have e3 : ∑ i ∈ Finset.range self.getNumberOfArguments, force d₁ self i ^ 2
      = ∑ i ∈ Finset.range self.getNumberOfArguments, force d₂ self i ^ 2 :=
    Finset.sum_congr rfl (fun i hi => by
      rw [hf i (List.mem_range.mpr (Finset.mem_range.mp hi))])
  rw [calculate_spec d₁ self h, calculate_spec d₂ self h, e1, e2, e3]

/-- C20: the restraint is separable over its arguments. On a restraint whose `at`,
`kappa` and `slope` have one entry per argument, each of the `n` single-argument
restraints `(at[i], kappa[i], slope[i])` on argument `i` alone returns an object, and
the `bias` and `force2` published by the `n`-argument restraint are the sums of the
`bias` and of the `force2` published by the single ones, while the accumulator of
argument `i` ends with the content that the `i`-th single restraint leaves in it: the
force written for argument `i` is that of the `i`-th single restraint. The same holds
with the `difference` of the arguments' own periodicities. -/
theorem separable (difference : Nat → ℚ → ℚ → ℚ) (self : BiasRestraint) (h : self.Sized) :
    ∃ (after : BiasRestraint) (parts : Nat → BiasRestraint),
      calculate difference self = some after ∧
      (∀ i < self.getNumberOfArguments,
        calculate (fun _ a b => difference i a b) (self.single i) = some (parts i)) ∧
      (∀ i < self.getNumberOfArguments,
        calculate (PLMD.difference (self.single i).arguments) (self.single i)
          = calculate (fun _ a b => PLMD.difference self.arguments i a b) (self.single i)) ∧
      after.bias = ∑ i ∈ Finset.range self.getNumberOfArguments, (parts i).bias ∧
      after.force2 = ∑ i ∈ Finset.range self.getNumberOfArguments, (parts i).force2 ∧
      (∀ i < self.getNumberOfArguments,
        after.inputForces.getD i 0 = (parts i).inputForces.getD 0 0) := by
  have hpart : ∀ i < self.getNumberOfArguments,
      calculate (fun _ a b => difference i a b) (self.single i) = some
        { self.single i with
          arguments := addForces (self.single i).arguments
            ((List.range (self.single i).getNumberOfArguments).map
              (force (fun _ a b => difference i a b) (self.single i))),
          bias := ∑ j ∈ Finset.range (self.single i).getNumberOfArguments,
            energy (fun _ a b => difference i a b) (self.single i) j,
          force2 := ∑ j ∈ Finset.range (self.single i).getNumberOfArguments,
            force (fun _ a b => difference i a b) (self.single i) j ^ 2 } :=
    fun i hi => calculate_spec _ _ (single_spec difference self h i hi).1
  refine ⟨_, fun i =>
    { self.single i with
      arguments := addForces (self.single i).arguments
        ((List.range (self.single i).getNumberOfArguments).map
          (force (fun _ a b => difference i a b) (self.single i))),
      bias := ∑ j ∈ Finset.range (self.single i).getNumberOfArguments,
        energy (fun _ a b => difference i a b) (self.single i) j,
      force2 := ∑ j ∈ Finset.range (self.single i).getNumberOfArguments,
        force (fun _ a b => difference i a b) (self.single i) j ^ 2 },
    calculate_spec difference self h, hpart, ?_, ?_, ?_, ?_⟩
  · intro i hi
    apply calculate_congr _ _ _ (single_spec difference self h i hi).1
    intro j hj
    rw [(single_spec difference self h i hi).2.1] at hj
    have hj0 : j = 0 := by omega
    rw [hj0, difference_single self i hi]
  · dsimp only
    apply Finset.sum_congr rfl
    intro i hi
    obtain ⟨-, hn, he, -, -⟩ := single_spec difference self h i (Finset.mem_range.mp hi)
    simp only [hn, Finset.sum_range_one, he]
  · dsimp only
    apply Finset.sum_congr rfl
    intro i hi
    obtain ⟨-, hn, -, hf, -⟩ := single_spec difference self h i (Finset.mem_range.mp hi)
    simp only [hn, Finset.sum_range_one, hf]
  · intro i hi
    obtain ⟨-, hn, -, hf, hp⟩ := single_spec difference self h i hi
    have hi' : i < self.arguments.length := hi
    have hlen1 : (self.single i).arguments.length = 1 := hn
    dsimp only
    simp only [inputForces, getNumberOfArguments, map_inputForce_addForces]
    simp only [inputForces] at hp
    rw [hlen1]
    have e1 : ∀ g : Nat → ℚ, ((List.range self.arguments.length).map g).getD i 0 = g i := by
      intro g
      simp [List.getD_eq_getElem?_getD, List.getElem?_range hi']
    have e2 : ∀ g : Nat → ℚ, ((List.range 1).map g).getD 0 0 = g 0 := by
      intro g
      simp [List.getD_eq_getElem?_getD]
    rw [e1, e2, hf, hp]

/-- C20 on the two-argument scenario: the restraint publishes `(1, 200)`, each of its two
single-argument restraints publishes `(0.5, 100)`. -/
theorem separable_witness :
    scenarioTwo.Sized ∧
    (∃ (after : BiasRestraint) (parts : Nat → BiasRestraint),
      calculate (difference scenarioTwo.arguments) scenarioTwo = some after ∧
      (∀ i < scenarioTwo.getNumberOfArguments,
        calculate (fun _ a b => difference scenarioTwo.arguments i a b) (scenarioTwo.single i)
          = some (parts i)) ∧
      (∀ i < scenarioTwo.getNumberOfArguments,
        calculate (difference (scenarioTwo.single i).arguments) (scenarioTwo.single i)
          = calculate (fun _ a b => difference scenarioTwo.arguments i a b)
              (scenarioTwo.single i)) ∧
      after.bias = ∑ i ∈ Finset.range scenarioTwo.getNumberOfArguments, (parts i).bias ∧
      after.force2 = ∑ i ∈ Finset.range scenarioTwo.getNumberOfArguments, (parts i).force2 ∧
      (∀ i < scenarioTwo.getNumberOfArguments,
        after.inputForces.getD i 0 = (parts i).inputForces.getD 0 0)) ∧
    (calculate (difference scenarioTwo.arguments) scenarioTwo).map published
      = some (1, 200) ∧
    (calculate (difference (scenarioTwo.single 0).arguments) (scenarioTwo.single 0)).map
      published = some (0.5, 100) ∧
    (calculate (difference (scenarioTwo.single 1).arguments) (scenarioTwo.single 1)).map
      published = some (0.5, 100) := by
  refine ⟨by decide, separable (difference scenarioTwo.arguments) scenarioTwo (by decide),
    ?_, ?_, ?_⟩
  · rw [calculate_spec _ _ (by decide)]
    norm_num [published, scenarioTwo, getNumberOfArguments, Finset.sum_range_succ, energy,
      force, cv, difference, Value.difference]
  · rw [calculate_spec _ _ (by decide)]
    norm_num [published, scenarioTwo, single, getNumberOfArguments, energy, force, cv,
      difference, Value.difference]
  · rw [calculate_spec _ _ (by decide)]
    norm_num [published, scenarioTwo, single, getNumberOfArguments, energy, force, cv,
      difference, Value.difference]

end BiasRestraint

/-! ## Theorems: `analysis::AnalysisBase` -/

namespace analysis

namespace AnalysisBase

/-- A node with an upstream, as a constructor application. -/
theorem eq_mk_of_input (n up : AnalysisBase) (hup : n.my_input_data = some up) :
    n = mk n.use_all_data n.freq (some up) n.lockRequestAtoms n.lockRequestArguments
      n.overrides := by
  cases n
  simp only [my_input_data] at hup
  subst hup
  rfl

/-- A root, as a constructor application. -/
theorem eq_mk_of_root (n : AnalysisBase) (hup : n.my_input_data = none) :
    n = mk n.use_all_data n.freq none n.lockRequestAtoms n.lockRequestArguments
      n.overrides := by
  cases n
  simp only [my_input_data] at hup
  subst hup
  rfl

/-- C7, counterexample: `stageUnset` answers `false` to `dissimilaritiesWereSet()`, and
its `getDissimilarity(0, 1)`, which is the implementation of `AnalysisBase`, returns the
number `1` of the upstream node. -/
theorem getDissimilarity_unchecked :
    stageUnset.dissimilaritiesWereSet = .ok false ∧
    stageUnset.getDissimilarity 0 1 = .ok 1 ∧
    ¬ (∀ (n : AnalysisBase) (i j : Nat), n.dissimilaritiesWereSet = .ok false →
        ∃ e, n.getDissimilarity i j = .error e) := by
  have h1 : stageUnset.dissimilaritiesWereSet = .ok false := by
    simp [stageUnset, dissimilaritiesWereSet, Overrides.empty]
  have h2 : stageUnset.getDissimilarity 0 1 = .ok 1 := by
    norm_num [stageUnset, collector, getDissimilarity, Overrides.empty]
  refine ⟨h1, h2, fun hall => ?_⟩
  obtain ⟨e, he⟩ := hall stageUnset 0 1 h1
  rw [h2] at he
  cases he

/-- C7 as amended: the implementation of `getDissimilarity` in `AnalysisBase` makes no
check of its own, it returns what the upstream node returns; so for a node whose class
overrides neither `dissimilaritiesWereSet` nor `getDissimilarity`, if the upstream node
fails on `getDissimilarity` whenever its `dissimilaritiesWereSet()` is false, then so
does the node: it fails and returns no number. -/
theorem getDissimilarity_check_inherited (n up : AnalysisBase)
    (hset : n.overrides.dissimilaritiesWereSet = none)
    (hdis : n.overrides.getDissimilarity = none)
    (hup : n.my_input_data = some up)
    (hcheck : ∀ i j, up.dissimilaritiesWereSet = .ok false →
      ∃ e, up.getDissimilarity i j = .error e) :
    (∀ i j, n.getDissimilarity i j = up.getDissimilarity i j) ∧
    (∀ i j, n.dissimilaritiesWereSet = .ok false →
      (∃ e, n.getDissimilarity i j = .error e) ∧ ∀ d, n.getDissimilarity i j ≠ .ok d) := by
  have hfwd : ∀ i j, n.getDissimilarity i j = up.getDissimilarity i j := by
    intro i j
    rw [eq_mk_of_input n up hup]
    simp [getDissimilarity, hdis]
  have hflag : n.dissimilaritiesWereSet = up.dissimilaritiesWereSet := by
    rw [eq_mk_of_input n up hup]
    simp [dissimilaritiesWereSet, hset]
  refine ⟨hfwd, fun i j hfalse => ?_⟩
  rw [hflag] at hfalse
  obtain ⟨e, he⟩ := hcheck i j hfalse
  rw [hfwd i j, he]
  exact ⟨⟨e, rfl⟩, fun d hd => by cases hd⟩

/-- C7 as amended, on the chain `collectorUnset <- stageOnUnset`: the dissimilarities
are not set and `getDissimilarity(0, 1)` fails on the node as it does upstream. -/
theorem getDissimilarity_check_inherited_witness :
    stageOnUnset.overrides.dissimilaritiesWereSet = none ∧
    stageOnUnset.overrides.getDissimilarity = none ∧
    stageOnUnset.my_input_data = some collectorUnset ∧
    (∀ i j, collectorUnset.dissimilaritiesWereSet = .ok false →
      ∃ e, collectorUnset.getDissimilarity i j = .error e) ∧
    stageOnUnset.dissimilaritiesWereSet = .ok false ∧
    ((∃ e, stageOnUnset.getDissimilarity 0 1 = .error e) ∧
      ∀ d, stageOnUnset.getDissimilarity 0 1 ≠ .ok d) :=
  have hc : ∀ i j : Nat, collectorUnset.dissimilaritiesWereSet = .ok false →
      ∃ e, collectorUnset.getDissimilarity i j = .error e :=
    fun _ _ _ => ⟨.plumed_error, rfl⟩
  ⟨rfl, rfl, rfl, hc, rfl,
    (getDissimilarity_check_inherited stageOnUnset collectorUnset rfl rfl rfl hc).2 0 1 rfl⟩

/-- C8, counterexample: on the root `bareRoot`, whose class overrides nothing,
`getWeight(0)` is a call through the null `my_input_data`; it is not the fatal error
raised by `plumed_error()`, the header raises no error at that point. -/
theorem root_query_not_reported :
    bareRoot.my_input_data = none ∧ bareRoot.overrides.getWeight = none ∧
    bareRoot.getWeight 0 = .error .nullPointer ∧
    bareRoot.getWeight 0 ≠ .error .plumed_error := by
  refine ⟨rfl, rfl, rfl, ?_⟩
  intro h
  cases h

/-- C8 as amended: on a root node (`my_input_data` is null) every query that the class
of the node does not override is a call through the null pointer: it returns no value,
for any arguments. -/
theorem root_queries_dereference_null (n : AnalysisBase) (hroot : n.my_input_data = none) :
    (n.overrides.getNumberOfDataPoints = none →
      n.getNumberOfDataPoints = .error .nullPointer) ∧
    (n.overrides.getDataPointIndexInBase = none →
      ∀ idata, n.getDataPointIndexInBase idata = .error .nullPointer) ∧
    (n.overrides.getWeight = none → ∀ idata, n.getWeight idata = .error .nullPointer) ∧
    (n.overrides.getMetricName = none → n.getMetricName = .error .nullPointer) ∧
    (n.overrides.usingMemory = none → n.usingMemory = .error .nullPointer) ∧
    (n.overrides.getNormalization = none → n.getNormalization = .error .nullPointer) ∧
    (n.overrides.dissimilaritiesWereSet = none →
      n.dissimilaritiesWereSet = .error .nullPointer) ∧
    (n.overrides.getDissimilarity = none →
      ∀ i j, n.getDissimilarity i j = .error .nullPointer) ∧
    (n.overrides.getArguments = none → n.getArguments = .error .nullPointer) ∧
    (n.overrides.getDataPoint = none →
      ∀ idata point weight, n.getDataPoint idata point weight = .error .nullPointer) ∧
    (n.overrides.getReferenceConfiguration = none →
      ∀ idata calcdist, n.getReferenceConfiguration idata calcdist = .error .nullPointer) := by
  cases n with
  | mk u f up la lg ov =>
    simp only [my_input_data] at hroot
    subst hroot
    simp only [overrides]
    refine ⟨?_, ?_, ?_, ?_, ?_, ?_, ?_, ?_, ?_, ?_, ?_⟩
    · intro h; simp [getNumberOfDataPoints, h]
    · intro h idata; simp [getDataPointIndexInBase, h]
    · intro h idata; simp [getWeight, h]
    · intro h; simp [getMetricName, h]
    · intro h; simp [usingMemory, h]
    · intro h; simp [getNormalization, h]
    · intro h; simp [dissimilaritiesWereSet, h]
    · intro h i j; simp [getDissimilarity, h]
    · intro h; simp [getArguments, h]
    · intro h idata point weight; simp [getDataPoint, h]
    · intro h idata calcdist; simp [getReferenceConfiguration, h]

/-- C8 as amended, on `bareRoot`: the data-point count, the weight, the dissimilarity,
the metric name, the normalization, the reference configuration and the argument list
are all calls through the null pointer. -/
theorem root_queries_dereference_null_witness :
    bareRoot.my_input_data = none ∧ bareRoot.overrides = Overrides.empty ∧
    bareRoot.getNumberOfDataPoints = .error .nullPointer ∧
    bareRoot.getWeight 0 = .error .nullPointer ∧
    bareRoot.getDissimilarity 0 1 = .error .nullPointer ∧
    bareRoot.getMetricName = .error .nullPointer ∧
    bareRoot.getNormalization = .error .nullPointer ∧
    bareRoot.getReferenceConfiguration 0 true = .error .nullPointer ∧
    bareRoot.getArguments = .error .nullPointer :=
  have h := root_queries_dereference_null bareRoot rfl
  ⟨rfl, rfl, h.1 rfl, h.2.2.1 rfl 0, h.2.2.2.2.2.2.2.1 rfl 0 1, h.2.2.2.1 rfl,
    h.2.2.2.2.2.1 rfl, h.2.2.2.2.2.2.2.2.2.2 rfl 0 true, h.2.2.2.2.2.2.2.2.1 rfl⟩

/-- C9: on every analysis node and for every argument, `isPeriodic()`,
`getNumberOfDerivatives()` and `calculateNumericalDerivatives(a)` stop with the fatal
error of `plumed_error()`; none of them returns, so the `return false` and the
`return 0` that follow the error are never reached. -/
theorem differentiable_features_fatal (n : AnalysisBase) (a : Option Nat) :
    n.isPeriodic = .error .plumed_error ∧
    n.getNumberOfDerivatives = .error .plumed_error ∧
    n.calculateNumericalDerivatives a = .error .plumed_error ∧
    (∀ b, n.isPeriodic ≠ .ok b) ∧ (∀ k, n.getNumberOfDerivatives ≠ .ok k) ∧
    n.calculateNumericalDerivatives a ≠ .ok () := by
  have h1 : n.isPeriodic = .error .plumed_error := rfl
  have h2 : n.getNumberOfDerivatives = .error .plumed_error := rfl
  have h3 : n.calculateNumericalDerivatives a = .error .plumed_error := rfl
  refine ⟨h1, h2, h3, fun b hb => ?_, fun k hk => ?_, fun hu => ?_⟩
  · rw [h1] at hb; cases hb
  · rw [h2] at hk; cases hk
  · rw [h3] at hu; cases hu

/-- The call `getNumberOfDataPoints()` is the dispatch of the query followed by the application of
the implementation found. -/
theorem getNumberOfDataPoints_eq_dispatch : ∀ (n : AnalysisBase),
    n.getNumberOfDataPoints = match dispatch (fun ov => ov.getNumberOfDataPoints) n with
      | .ok r => r.1
      | .error e => .error e
  | mk _ _ none _ _ ov => by
    cases h : ov.getNumberOfDataPoints <;> simp [getNumberOfDataPoints, dispatch, h]
  | mk _ _ (some u) _ _ ov => by
    have ih := getNumberOfDataPoints_eq_dispatch u
    cases h : ov.getNumberOfDataPoints
    · simp only [getNumberOfDataPoints, dispatch, h, ih]
      cases dispatch (fun ov => ov.getNumberOfDataPoints) u <;> rfl
    · simp [getNumberOfDataPoints, dispatch, h]

/-- The call `getDataPointIndexInBase(idata)` is the dispatch of the query followed by the application of
the implementation found. -/
theorem getDataPointIndexInBase_eq_dispatch : ∀ (n : AnalysisBase) (idata : Nat),
    n.getDataPointIndexInBase idata = match dispatch (fun ov => ov.getDataPointIndexInBase) n with
      | .ok r => r.1 idata
      | .error e => .error e
  | mk _ _ none _ _ ov, idata => by
    cases h : ov.getDataPointIndexInBase <;> simp [getDataPointIndexInBase, dispatch, h]
  | mk _ _ (some u) _ _ ov, idata => by
    have ih := getDataPointIndexInBase_eq_dispatch u idata
    cases h : ov.getDataPointIndexInBase
    · simp only [getDataPointIndexInBase, dispatch, h, ih]
      cases dispatch (fun ov => ov.getDataPointIndexInBase) u <;> rfl
    · simp [getDataPointIndexInBase, dispatch, h]

/-- The call `getWeight(idata)` is the dispatch of the query followed by the application of
the implementation found. -/
theorem getWeight_eq_dispatch : ∀ (n : AnalysisBase) (idata : Nat),
    n.getWeight idata = match dispatch (fun ov => ov.getWeight) n with
      | .ok r => r.1 idata
      | .error e => .error e
  | mk _ _ none _ _ ov, idata => by
    cases h : ov.getWeight <;> simp [getWeight, dispatch, h]
  | mk _ _ (some u) _ _ ov, idata => by
    have ih := getWeight_eq_dispatch u idata
    cases h : ov.getWeight
    · simp only [getWeight, dispatch, h, ih]
      cases dispatch (fun ov => ov.getWeight) u <;> rfl
    · simp [getWeight, dispatch, h]

/-- The call `getMetricName()` is the dispatch of the query followed by the application of
the implementation found. -/
theorem getMetricName_eq_dispatch : ∀ (n : AnalysisBase),
    n.getMetricName = match dispatch (fun ov => ov.getMetricName) n with
      | .ok r => r.1
      | .error e => .error e
  | mk _ _ none _ _ ov => by
    cases h : ov.getMetricName <;> simp [getMetricName, dispatch, h]
  | mk _ _ (some u) _ _ ov => by
    have ih := getMetricName_eq_dispatch u
    cases h : ov.getMetricName
    · simp only [getMetricName, dispatch, h, ih]
      cases dispatch (fun ov => ov.getMetricName) u <;> rfl
    · simp [getMetricName, dispatch, h]

/-- The call `usingMemory()` is the dispatch of the query followed by the application of
the implementation found. -/
theorem usingMemory_eq_dispatch : ∀ (n : AnalysisBase),
    n.usingMemory = match dispatch (fun ov => ov.usingMemory) n with
      | .ok r => r.1
      | .error e => .error e
  | mk _ _ none _ _ ov => by
    cases h : ov.usingMemory <;> simp [usingMemory, dispatch, h]
  | mk _ _ (some u) _ _ ov => by
    have ih := usingMemory_eq_dispatch u
    cases h : ov.usingMemory
    · simp only [usingMemory, dispatch, h, ih]
      cases dispatch (fun ov => ov.usingMemory) u <;> rfl
    · simp [usingMemory, dispatch, h]

/-- The call `getNormalization()` is the dispatch of the query followed by the application of
the implementation found. -/
theorem getNormalization_eq_dispatch : ∀ (n : AnalysisBase),
    n.getNormalization = match dispatch (fun ov => ov.getNormalization) n with
      | .ok r => r.1
      | .error e => .error e
  | mk _ _ none _ _ ov => by
    cases h : ov.getNormalization <;> simp [getNormalization, dispatch, h]
  | mk _ _ (some u) _ _ ov => by
    have ih := getNormalization_eq_dispatch u
    cases h : ov.getNormalization
    · simp only [getNormalization, dispatch, h, ih]
      cases dispatch (fun ov => ov.getNormalization) u <;> rfl
    · simp [getNormalization, dispatch, h]

/-- The call `dissimilaritiesWereSet()` is the dispatch of the query followed by the application of
the implementation found. -/
theorem dissimilaritiesWereSet_eq_dispatch : ∀ (n : AnalysisBase),
    n.dissimilaritiesWereSet = match dispatch (fun ov => ov.dissimilaritiesWereSet) n with
      | .ok r => r.1
      | .error e => .error e
  | mk _ _ none _ _ ov => by
    cases h : ov.dissimilaritiesWereSet <;> simp [dissimilaritiesWereSet, dispatch, h]
  | mk _ _ (some u) _ _ ov => by
    have ih := dissimilaritiesWereSet_eq_dispatch u
    cases h : ov.dissimilaritiesWereSet
    · simp only [dissimilaritiesWereSet, dispatch, h, ih]
      cases dispatch (fun ov => ov.dissimilaritiesWereSet) u <;> rfl
    · simp [dissimilaritiesWereSet, dispatch, h]

/-- The call `getDissimilarity(i, j)` is the dispatch of the query followed by the application of
the implementation found. -/
theorem getDissimilarity_eq_dispatch : ∀ (n : AnalysisBase) (i : Nat) (j : Nat),
    n.getDissimilarity i j = match dispatch (fun ov => ov.getDissimilarity) n with
      | .ok r => r.1 i j
      | .error e => .error e
  | mk _ _ none _ _ ov, i, j => by
    cases h : ov.getDissimilarity <;> simp [getDissimilarity, dispatch, h]
  | mk _ _ (some u) _ _ ov, i, j => by
    have ih := getDissimilarity_eq_dispatch u i j
    cases h : ov.getDissimilarity
    · simp only [getDissimilarity, dispatch, h, ih]
      cases dispatch (fun ov => ov.getDissimilarity) u <;> rfl
    · simp [getDissimilarity, dispatch, h]

/-- The call `getArguments()` is the dispatch of the query followed by the application of
the implementation found. -/
theorem getArguments_eq_dispatch : ∀ (n : AnalysisBase),
    n.getArguments = match dispatch (fun ov => ov.getArguments) n with
      | .ok r => r.1
      | .error e => .error e
  | mk _ _ none _ _ ov => by
    cases h : ov.getArguments <;> simp [getArguments, dispatch, h]
  | mk _ _ (some u) _ _ ov => by
    have ih := getArguments_eq_dispatch u
    cases h : ov.getArguments
    · simp only [getArguments, dispatch, h, ih]
      cases dispatch (fun ov => ov.getArguments) u <;> rfl
    · simp [getArguments, dispatch, h]

/-- The call `getDataPoint(idata, point, weight)` is the dispatch of the query followed by the application of
the implementation found. -/
theorem getDataPoint_eq_dispatch : ∀ (n : AnalysisBase) (idata : Nat) (point : List ℚ) (weight : ℚ),
    n.getDataPoint idata point weight = match dispatch (fun ov => ov.getDataPoint) n with
      | .ok r => r.1 idata point weight
      | .error e => .error e
  | mk _ _ none _ _ ov, idata, point, weight => by
    cases h : ov.getDataPoint <;> simp [getDataPoint, dispatch, h]
  | mk _ _ (some u) _ _ ov, idata, point, weight => by
    have ih := getDataPoint_eq_dispatch u idata point weight
    cases h : ov.getDataPoint
    · simp only [getDataPoint, dispatch, h, ih]
      cases dispatch (fun ov => ov.getDataPoint) u <;> rfl
    · simp [getDataPoint, dispatch, h]

/-- The call `getReferenceConfiguration(idata, calcdist)` is the dispatch of the query followed by the application of
the implementation found. -/
theorem getReferenceConfiguration_eq_dispatch : ∀ (n : AnalysisBase) (idata : Nat) (calcdist : Bool),
    n.getReferenceConfiguration idata calcdist = match dispatch (fun ov => ov.getReferenceConfiguration) n with
      | .ok r => r.1 idata calcdist
      | .error e => .error e
  | mk _ _ none _ _ ov, idata, calcdist => by
    cases h : ov.getReferenceConfiguration <;> simp [getReferenceConfiguration, dispatch, h]
  | mk _ _ (some u) _ _ ov, idata, calcdist => by
    have ih := getReferenceConfiguration_eq_dispatch u idata calcdist
    cases h : ov.getReferenceConfiguration
    · simp only [getReferenceConfiguration, dispatch, h, ih]
      cases dispatch (fun ov => ov.getReferenceConfiguration) u <;> rfl
    · simp [getReferenceConfiguration, dispatch, h]

/-- The dispatch of a query on a node that overrides it: its own implementation, in no
forwarding step. -/
theorem dispatch_override {β : Type} (sel : Overrides → Option β) (n : AnalysisBase) (impl : β)
    (h : sel n.overrides = some impl) : dispatch sel n = .ok (impl, 0) := by
  cases n with
  | mk u f up la lg ov =>
    have h' : sel ov = some impl := h
    cases up <;> simp [dispatch, h']

/-- The dispatch of a query along a chain of `k` nodes that do not override it: the
implementation of the root, in `k` forwarding steps. -/
theorem dispatch_chain {β : Type} (sel : Overrides → Option β) (root : AnalysisBase) (impl : β)
    (hroot : sel root.overrides = some impl) :
    ∀ (k : Nat) (n : AnalysisBase), forwardsTo sel root k n → dispatch sel n = .ok (impl, k) := by
  intro k
  induction k with
  | zero =>
    intro n hn
    simp only [forwardsTo] at hn
    rw [hn]
    exact dispatch_override sel root impl hroot
  | succ k ih =>
    intro n hn
    obtain ⟨hnone, m, hm, hch⟩ := hn
    have hmk := eq_mk_of_input n m hm
    rw [hmk]
    simp [dispatch, hnone, ih m hch]

/-- C17: delegation composes through chains of any length. For each of the eleven
queries, every `k` and every chain `root <- n1 <- ... <- nk` in which the root overrides
the query with the implementation `f` and none of `n1 .. nk` overrides it: the call of
the query, on any node, is the dispatch of the query followed by the application of the
implementation found, so the forwarding steps of the dispatch are those of the call; on
`nk` the dispatch ends at `f` after exactly `k` forwarding steps, on the root after
none; and the call on `nk` returns, for all arguments, `f` applied to them, which is
exactly what the call on the root returns. (A chain is a finite list of nodes here, so
it has no cycle, and the call is a total function: it terminates.) -/
theorem delegation_composes (root n : AnalysisBase) (k : Nat) :
    (∀ f, root.overrides.getNumberOfDataPoints = some f →
      forwardsTo (fun ov => ov.getNumberOfDataPoints) root k n →
      (∀ (m : AnalysisBase), m.getNumberOfDataPoints =
        match dispatch (fun ov => ov.getNumberOfDataPoints) m with
        | .ok r => r.1
        | .error e => .error e) ∧
      dispatch (fun ov => ov.getNumberOfDataPoints) n = .ok (f, k) ∧
      dispatch (fun ov => ov.getNumberOfDataPoints) root = .ok (f, 0) ∧
      n.getNumberOfDataPoints = f ∧
      root.getNumberOfDataPoints = f ∧
      n.getNumberOfDataPoints = root.getNumberOfDataPoints) ∧
    (∀ f, root.overrides.getDataPointIndexInBase = some f →
      forwardsTo (fun ov => ov.getDataPointIndexInBase) root k n →
      (∀ (m : AnalysisBase) idata, m.getDataPointIndexInBase idata =
        match dispatch (fun ov => ov.getDataPointIndexInBase) m with
        | .ok r => r.1 idata
        | .error e => .error e) ∧
      dispatch (fun ov => ov.getDataPointIndexInBase) n = .ok (f, k) ∧
      dispatch (fun ov => ov.getDataPointIndexInBase) root = .ok (f, 0) ∧
      (∀ idata, n.getDataPointIndexInBase idata = f idata) ∧
      (∀ idata, root.getDataPointIndexInBase idata = f idata) ∧
      (∀ idata, n.getDataPointIndexInBase idata = root.getDataPointIndexInBase idata)) ∧
    (∀ f, root.overrides.getWeight = some f →
      forwardsTo (fun ov => ov.getWeight) root k n →
      (∀ (m : AnalysisBase) idata, m.getWeight idata =
        match dispatch (fun ov => ov.getWeight) m with
        | .ok r => r.1 idata
        | .error e => .error e) ∧
      dispatch (fun ov => ov.getWeight) n = .ok (f, k) ∧
      dispatch (fun ov => ov.getWeight) root = .ok (f, 0) ∧
      (∀ idata, n.getWeight idata = f idata) ∧
      (∀ idata, root.getWeight idata = f idata) ∧
      (∀ idata, n.getWeight idata = root.getWeight idata)) ∧
    (∀ f, root.overrides.getMetricName = some f →
      forwardsTo (fun ov => ov.getMetricName) root k n →
      (∀ (m : AnalysisBase), m.getMetricName =
        match dispatch (fun ov => ov.getMetricName) m with
        | .ok r => r.1
        | .error e => .error e) ∧
      dispatch (fun ov => ov.getMetricName) n = .ok (f, k) ∧
      dispatch (fun ov => ov.getMetricName) root = .ok (f, 0) ∧
      n.getMetricName = f ∧
      root.getMetricName = f ∧
      n.getMetricName = root.getMetricName) ∧
    (∀ f, root.overrides.usingMemory = some f →
      forwardsTo (fun ov => ov.usingMemory) root k n →
      (∀ (m : AnalysisBase), m.usingMemory =
        match dispatch (fun ov => ov.usingMemory) m with
        | .ok r => r.1
        | .error e => .error e) ∧
      dispatch (fun ov => ov.usingMemory) n = .ok (f, k) ∧
      dispatch (fun ov => ov.usingMemory) root = .ok (f, 0) ∧
      n.usingMemory = f ∧
      root.usingMemory = f ∧
      n.usingMemory = root.usingMemory) ∧
    (∀ f, root.overrides.getNormalization = some f →
      forwardsTo (fun ov => ov.getNormalization) root k n →
      (∀ (m : AnalysisBase), m.getNormalization =
        match dispatch (fun ov => ov.getNormalization) m with
        | .ok r => r.1
        | .error e => .error e) ∧
      dispatch (fun ov => ov.getNormalization) n = .ok (f, k) ∧
      dispatch (fun ov => ov.getNormalization) root = .ok (f, 0) ∧
      n.getNormalization = f ∧
      root.getNormalization = f ∧
      n.getNormalization = root.getNormalization) ∧
    (∀ f, root.overrides.dissimilaritiesWereSet = some f →
      forwardsTo (fun ov => ov.dissimilaritiesWereSet) root k n →
      (∀ (m : AnalysisBase), m.dissimilaritiesWereSet =
        match dispatch (fun ov => ov.dissimilaritiesWereSet) m with
        | .ok r => r.1
        | .error e => .error e) ∧
      dispatch (fun ov => ov.dissimilaritiesWereSet) n = .ok (f, k) ∧
      dispatch (fun ov => ov.dissimilaritiesWereSet) root = .ok (f, 0) ∧
      n.dissimilaritiesWereSet = f ∧
      root.dissimilaritiesWereSet = f ∧
      n.dissimilaritiesWereSet = root.dissimilaritiesWereSet) ∧
    (∀ f, root.overrides.getDissimilarity = some f →
      forwardsTo (fun ov => ov.getDissimilarity) root k n →
      (∀ (m : AnalysisBase) i j, m.getDissimilarity i j =
        match dispatch (fun ov => ov.getDissimilarity) m with
        | .ok r => r.1 i j
        | .error e => .error e) ∧
      dispatch (fun ov => ov.getDissimilarity) n = .ok (f, k) ∧
      dispatch (fun ov => ov.getDissimilarity) root = .ok (f, 0) ∧
      (∀ i j, n.getDissimilarity i j = f i j) ∧
      (∀ i j, root.getDissimilarity i j = f i j) ∧
      (∀ i j, n.getDissimilarity i j = root.getDissimilarity i j)) ∧
    (∀ f, root.overrides.getArguments = some f →
      forwardsTo (fun ov => ov.getArguments) root k n →
      (∀ (m : AnalysisBase), m.getArguments =
        match dispatch (fun ov => ov.getArguments) m with
        | .ok r => r.1
        | .error e => .error e) ∧
      dispatch (fun ov => ov.getArguments) n = .ok (f, k) ∧
      dispatch (fun ov => ov.getArguments) root = .ok (f, 0) ∧
      n.getArguments = f ∧
      root.getArguments = f ∧
      n.getArguments = root.getArguments) ∧
    (∀ f, root.overrides.getDataPoint = some f →
      forwardsTo (fun ov => ov.getDataPoint) root k n →
      (∀ (m : AnalysisBase) idata point weight, m.getDataPoint idata point weight =
        match dispatch (fun ov => ov.getDataPoint) m with
        | .ok r => r.1 idata point weight
        | .error e => .error e) ∧
      dispatch (fun ov => ov.getDataPoint) n = .ok (f, k) ∧
      dispatch (fun ov => ov.getDataPoint) root = .ok (f, 0) ∧
      (∀ idata point weight, n.getDataPoint idata point weight = f idata point weight) ∧
      (∀ idata point weight, root.getDataPoint idata point weight = f idata point weight) ∧
      (∀ idata point weight, n.getDataPoint idata point weight = root.getDataPoint idata point weight)) ∧
    (∀ f, root.overrides.getReferenceConfiguration = some f →
      forwardsTo (fun ov => ov.getReferenceConfiguration) root k n →
      (∀ (m : AnalysisBase) idata calcdist, m.getReferenceConfiguration idata calcdist =
        match dispatch (fun ov => ov.getReferenceConfiguration) m with
        | .ok r => r.1 idata calcdist
        | .error e => .error e) ∧
      dispatch (fun ov => ov.getReferenceConfiguration) n = .ok (f, k) ∧
      dispatch (fun ov => ov.getReferenceConfiguration) root = .ok (f, 0) ∧
      (∀ idata calcdist, n.getReferenceConfiguration idata calcdist = f idata calcdist) ∧
      (∀ idata calcdist, root.getReferenceConfiguration idata calcdist = f idata calcdist) ∧
      (∀ idata calcdist, n.getReferenceConfiguration idata calcdist = root.getReferenceConfiguration idata calcdist)) := by
  refine ⟨?_, ?_, ?_, ?_, ?_, ?_, ?_, ?_, ?_, ?_, ?_⟩
  · intro f hf hch
    have hd := dispatch_chain _ root f hf k n hch
    have hr := dispatch_override _ root f hf
    refine ⟨fun m => getNumberOfDataPoints_eq_dispatch m, hd, hr, ?_, ?_, ?_⟩
    · rw [getNumberOfDataPoints_eq_dispatch n, hd]
    · rw [getNumberOfDataPoints_eq_dispatch root, hr]
    · rw [getNumberOfDataPoints_eq_dispatch n, getNumberOfDataPoints_eq_dispatch root, hd, hr]
  · intro f hf hch
    have hd := dispatch_chain _ root f hf k n hch
    have hr := dispatch_override _ root f hf
    refine ⟨fun m idata => getDataPointIndexInBase_eq_dispatch m idata, hd, hr, fun idata => ?_, fun idata => ?_, fun idata => ?_⟩
    · rw [getDataPointIndexInBase_eq_dispatch n idata, hd]
    · rw [getDataPointIndexInBase_eq_dispatch root idata, hr]
    · rw [getDataPointIndexInBase_eq_dispatch n idata, getDataPointIndexInBase_eq_dispatch root idata, hd, hr]
  · intro f hf hch
    have hd := dispatch_chain _ root f hf k n hch
    have hr := dispatch_override _ root f hf
    refine ⟨fun m idata => getWeight_eq_dispatch m idata, hd, hr, fun idata => ?_, fun idata => ?_, fun idata => ?_⟩
    · rw [getWeight_eq_dispatch n idata, hd]
    · rw [getWeight_eq_dispatch root idata, hr]
    · rw [getWeight_eq_dispatch n idata, getWeight_eq_dispatch root idata, hd, hr]
  · intro f hf hch
    have hd := dispatch_chain _ root f hf k n hch
    have hr := dispatch_override _ root f hf
    refine ⟨fun m => getMetricName_eq_dispatch m, hd, hr, ?_, ?_, ?_⟩
    · rw [getMetricName_eq_dispatch n, hd]
    · rw [getMetricName_eq_dispatch root, hr]
    · rw [getMetricName_eq_dispatch n, getMetricName_eq_dispatch root, hd, hr]
  · intro f hf hch
    have hd := dispatch_chain _ root f hf k n hch
    have hr := dispatch_override _ root f hf
    refine ⟨fun m => usingMemory_eq_dispatch m, hd, hr, ?_, ?_, ?_⟩
    · rw [usingMemory_eq_dispatch n, hd]
    · rw [usingMemory_eq_dispatch root, hr]
    · rw [usingMemory_eq_dispatch n, usingMemory_eq_dispatch root, hd, hr]
  · intro f hf hch
    have hd := dispatch_chain _ root f hf k n hch
    have hr := dispatch_override _ root f hf
    refine ⟨fun m => getNormalization_eq_dispatch m, hd, hr, ?_, ?_, ?_⟩
    · rw [getNormalization_eq_dispatch n, hd]
    · rw [getNormalization_eq_dispatch root, hr]
    · rw [getNormalization_eq_dispatch n, getNormalization_eq_dispatch root, hd, hr]
  · intro f hf hch
    have hd := dispatch_chain _ root f hf k n hch
    have hr := dispatch_override _ root f hf
    refine ⟨fun m => dissimilaritiesWereSet_eq_dispatch m, hd, hr, ?_, ?_, ?_⟩
    · rw [dissimilaritiesWereSet_eq_dispatch n, hd]
    · rw [dissimilaritiesWereSet_eq_dispatch root, hr]
    · rw [dissimilaritiesWereSet_eq_dispatch n, dissimilaritiesWereSet_eq_dispatch root, hd, hr]
  · intro f hf hch
    have hd := dispatch_chain _ root f hf k n hch
    have hr := dispatch_override _ root f hf
    refine ⟨fun m i j => getDissimilarity_eq_dispatch m i j, hd, hr, fun i j => ?_, fun i j => ?_, fun i j => ?_⟩
    · rw [getDissimilarity_eq_dispatch n i j, hd]
    · rw [getDissimilarity_eq_dispatch root i j, hr]
    · rw [getDissimilarity_eq_dispatch n i j, getDissimilarity_eq_dispatch root i j, hd, hr]
  · intro f hf hch
    have hd := dispatch_chain _ root f hf k n hch
    have hr := dispatch_override _ root f hf
    refine ⟨fun m => getArguments_eq_dispatch m, hd, hr, ?_, ?_, ?_⟩
    · rw [getArguments_eq_dispatch n, hd]
    · rw [getArguments_eq_dispatch root, hr]
    · rw [getArguments_eq_dispatch n, getArguments_eq_dispatch root, hd, hr]
  · intro f hf hch
    have hd := dispatch_chain _ root f hf k n hch
    have hr := dispatch_override _ root f hf
    refine ⟨fun m idata point weight => getDataPoint_eq_dispatch m idata point weight, hd, hr, fun idata point weight => ?_, fun idata point weight => ?_, fun idata point weight => ?_⟩
    · rw [getDataPoint_eq_dispatch n idata point weight, hd]
    · rw [getDataPoint_eq_dispatch root idata point weight, hr]
    · rw [getDataPoint_eq_dispatch n idata point weight, getDataPoint_eq_dispatch root idata point weight, hd, hr]
  · intro f hf hch
    have hd := dispatch_chain _ root f hf k n hch
    have hr := dispatch_override _ root f hf
    refine ⟨fun m idata calcdist => getReferenceConfiguration_eq_dispatch m idata calcdist, hd, hr, fun idata calcdist => ?_, fun idata calcdist => ?_, fun idata calcdist => ?_⟩
    · rw [getReferenceConfiguration_eq_dispatch n idata calcdist, hd]
    · rw [getReferenceConfiguration_eq_dispatch root idata calcdist, hr]
    · rw [getReferenceConfiguration_eq_dispatch n idata calcdist, getReferenceConfiguration_eq_dispatch root idata calcdist, hd, hr]

/-- C17 on the chain `collector <- stage <- stageTwo`: `getWeight`, `getNumberOfDataPoints`
and `getDissimilarity` on `stageTwo` take two forwarding steps and return what the
implementations of `collector` return; the weight of point `2` is `3`, the number of
data points is `3`, the dissimilarity of the points `0` and `2` is `4`. -/
theorem delegation_composes_witness :
    collector.overrides.getWeight = some (fun idata => .ok (1 + idata)) ∧
    forwardsTo (fun ov => ov.getWeight) collector 2 stageTwo ∧
    dispatch (fun ov => ov.getWeight) stageTwo = .ok (fun idata => .ok (1 + idata), 2) ∧
    (∀ idata, stageTwo.getWeight idata = .ok (1 + idata)) ∧
    (∀ idata, stageTwo.getWeight idata = collector.getWeight idata) ∧
    stageTwo.getWeight 2 = .ok 3 ∧
    (dispatch (fun ov => ov.getNumberOfDataPoints) stageTwo = .ok (.ok 3, 2) ∧
      stageTwo.getNumberOfDataPoints = .ok 3 ∧
      stageTwo.getNumberOfDataPoints = collector.getNumberOfDataPoints) ∧
    (dispatch (fun ov => ov.getDissimilarity) stageTwo
        = .ok (fun i j => .ok (((i : ℚ) - j) ^ 2), 2) ∧
      (∀ i j, stageTwo.getDissimilarity i j = collector.getDissimilarity i j) ∧
      stageTwo.getDissimilarity 0 2 = .ok 4) := by
  have h := delegation_composes collector stageTwo 2
  have hw := h.2.2.1 _ rfl ⟨rfl, stage, rfl, rfl, collector, rfl, rfl⟩
  have hn := h.1 _ rfl ⟨rfl, stage, rfl, rfl, collector, rfl, rfl⟩
  have hd := h.2.2.2.2.2.2.2.1 _ rfl ⟨rfl, stage, rfl, rfl, collector, rfl, rfl⟩
  refine ⟨rfl, ⟨rfl, stage, rfl, rfl, collector, rfl, rfl⟩, hw.2.1, hw.2.2.2.1, hw.2.2.2.2.2,
    ?_, ⟨hn.2.1, hn.2.2.2.1, hn.2.2.2.2.2⟩, ⟨hd.2.1, hd.2.2.2.2.2, ?_⟩⟩
  · rw [hw.2.2.2.1 2]
    norm_num
  · rw [hd.2.2.2.1 0 2]
    norm_num

/-- C13: `confirmStride(stride, useAll)` sets `freq = stride` and
`use_all_data = (useAll != 0)` and changes nothing else: `my_input_data`, the two request
locks and the overrides of the node are as before; a second call overrides the first,
and repeating a call changes nothing. -/
theorem confirmStride_frame (n : AnalysisBase) (stride useAll stride' useAll' : Nat) :
    (n.confirmStride stride useAll).freq = stride ∧
    (n.confirmStride stride useAll).use_all_data = (useAll != 0) ∧
    (n.confirmStride stride useAll).my_input_data = n.my_input_data ∧
    (n.confirmStride stride useAll).lockRequestAtoms = n.lockRequestAtoms ∧
    (n.confirmStride stride useAll).lockRequestArguments = n.lockRequestArguments ∧
    (n.confirmStride stride useAll).overrides = n.overrides ∧
    (n.confirmStride stride useAll).confirmStride stride' useAll'
      = n.confirmStride stride' useAll' ∧
    (n.confirmStride stride useAll).confirmStride stride useAll
      = n.confirmStride stride useAll := by
  cases n
  exact ⟨rfl, rfl, rfl, rfl, rfl, rfl, rfl, rfl⟩

/-- C14: `lockRequests` and `unlockRequests` act on the atom-selection list and on the
argument-selection list together: after `lockRequests` both are locked, after
`unlockRequests` both are unlocked, so that from any state, and in particular from a
state in which the two lists agree, neither call returns with one list locked and the
other unlocked; the other members of the node are as before. -/
theorem requests_locked_together (n : AnalysisBase) :
    (n.lockRequests.lockRequestAtoms = true ∧ n.lockRequests.lockRequestArguments = true) ∧
    (n.unlockRequests.lockRequestAtoms = false ∧
      n.unlockRequests.lockRequestArguments = false) ∧
    n.lockRequests.lockRequestAtoms = n.lockRequests.lockRequestArguments ∧
    n.unlockRequests.lockRequestAtoms = n.unlockRequests.lockRequestArguments ∧
    (n.lockRequests.use_all_data = n.use_all_data ∧ n.lockRequests.freq = n.freq ∧
      n.lockRequests.my_input_data = n.my_input_data ∧
      n.lockRequests.overrides = n.overrides) ∧
    (n.unlockRequests.use_all_data = n.use_all_data ∧ n.unlockRequests.freq = n.freq ∧
      n.unlockRequests.my_input_data = n.my_input_data ∧
      n.unlockRequests.overrides = n.overrides) := by
  cases n
  exact ⟨⟨rfl, rfl⟩, ⟨rfl, rfl⟩, rfl, rfl, ⟨rfl, rfl, rfl, rfl⟩, ⟨rfl, rfl, rfl, rfl⟩⟩

end AnalysisBase

end analysis

end PLMD
